import Mathlib

/-!
# Verification of the bookvault recommendation pipeline

Shallow embedding of the recommendation-generation core of the bookvault
repository (the API handler in the current revision of
`src/pages/api/recommendations.ts`, referred to below as "the pipeline
source"), together with proofs/refutations of the frozen claims C1..C10.

Modelling conventions:
* JavaScript numbers used for ratings, weights and scores are modelled as `ℚ`.
* JavaScript `string | null` values are modelled as `Option String`;
  JS truthiness of a string (`""` and `null` are falsy) is modelled by
  explicit emptiness tests.
* JS `Map`/`Set` objects are modelled as association lists / lists, which
  preserve insertion order exactly as JS `Map`/`Set` iteration does.
* `String.prototype.normalize("NFKD")` + combining-mark stripping is modelled
  for the ASCII range (where it is the identity) plus a fold of the common
  Latin diacritic letters appearing in the repository's data (umlauts,
  accented vowels).  All concrete inputs used in witnesses and
  counterexamples are ASCII, where the model is exact.
* Network-backed collaborators are oracles passed in as function parameters;
  an in-request result therefore depends only on the oracle functions.
  Call counting (for the zero-network-calls property) counts oracle
  invocations.
-/

namespace BV


/-! ## Generic list/assoc helpers (JS `Map`/`Set`/array modelling) -/

/-- Write `a` at index `n` (no-op when out of bounds), as JS `arr[n] = a`. -/
def listSet : List α → Nat → α → List α
  | [], _, _ => []
  | _ :: l, 0, b => b :: l
  | a :: l, n + 1, b => a :: listSet l n b

/-- Lookup in an association list (JS `Map.get`, `undefined` as `none`). -/
def mapGet : List (String × β) → String → Option β
  | [], _ => none
  | (k, v) :: rest, key => if k = key then some v else mapGet rest key

/-- Lookup with default (`map.get(k) ?? d` / `map.get(k) || d` on numbers). -/
def mapGetD (m : List (String × β)) (key : String) (d : β) : β :=
  (mapGet m key).getD d

/-- JS `Map.has`. -/
def mapHas (m : List (String × β)) (key : String) : Bool :=
  (mapGet m key).isSome

/-- JS `Map.set`: overwrite in place if the key exists (keeping its position in
iteration order), else append.  This matches JS `Map` insertion-order
semantics. -/
def mapSet : List (String × β) → String → β → List (String × β)
  | [], key, v => [(key, v)]
  | (k, w) :: rest, key, v =>
    if k = key then (k, v) :: rest else (k, w) :: mapSet rest key v

/-- `map.set(k, (map.get(k) ?? 0) + v)` — the accumulate-into-map idiom used
throughout the profile builders. -/
def mapAdd (m : List (String × ℚ)) (key : String) (v : ℚ) : List (String × ℚ) :=
  mapSet m key (mapGetD m key 0 + v)

/-- JS `Array.from(new Set(arr))`: first occurrences, in order. -/
def dedupKeepFirst : List String → List String
  | [] => []
  | x :: rest => x :: (dedupKeepFirst rest).filter (fun y => y ≠ x)

/-- Stable insertion into a list sorted by strictly-descending "better",
placing the new element after every element with `weight ≥` its own.
Used to model JS `Array.prototype.sort((a,b) => b.w - a.w)`, which is a
stable sort. -/
def insertDescBy (w : α → ℚ) (x : α) : List α → List α
  | [] => [x]
  | y :: rest => if w x ≤ w y then y :: insertDescBy w x rest else x :: y :: rest

/-- Stable sort by descending `w` (models JS stable `sort` with comparator
`(a, b) => w b - w a`). -/
def sortDescBy (w : α → ℚ) : List α → List α
  | [] => []
  | x :: rest => insertDescBy w x (sortDescBy w rest)

/-- JS `String.prototype.includes` (substring containment). -/
def listHasInfix (needle : List Char) : List Char → Bool
  | [] => needle.isEmpty
  | c :: rest => needle.isPrefixOf (c :: rest) || listHasInfix needle rest

def strIncludes (hay needle : String) : Bool :=
  listHasInfix needle.data hay.data

/-- The JS whitespace characters relevant to `String.prototype.trim`
(ASCII subset; the repository's data contains no exotic Unicode spaces). -/
def isJsWs (c : Char) : Bool :=
  c = ' ' || c = '\t' || c = '\n' || c = '\r' || c = '\x0b' || c = '\x0c'

/-- JS `String.prototype.trim`, modelled at the character-list level so that
its interaction with the normalizer is provable. -/
def jsTrim (s : String) : String :=
  String.mk (((s.data.dropWhile isJsWs).reverse.dropWhile isJsWs).reverse)

/-- JS `String.prototype.split` on a character class, modelled at the
character-list level (so it computes by structural recursion; like JS,
splitting the empty string yields `[""]`). -/
def splitListOn (p : Char → Bool) (l : List Char) : List String :=
  (l.foldr
      (fun c acc =>
        if p c then [] :: acc
        else
          match acc with
          | [] => [[c]]
          | h :: t => (c :: h) :: t)
      ([[]] : List (List Char))).map String.mk

def isLowerAlnum (c : Char) : Bool :=
  ('a' ≤ c && c ≤ 'z') || ('0' ≤ c && c ≤ '9')

/-- One step of grouping a character list into maximal alphanumeric runs
(right fold state: current run, finished runs). -/
def tokStep (c : Char) (st : List Char × List (List Char)) :
    List Char × List (List Char) :=
  if isLowerAlnum c then (c :: st.1, st.2)
  else ([], if st.1 = [] then st.2 else st.1 :: st.2)

def tokFinish (st : List Char × List (List Char)) : List (List Char) :=
  if st.1 = [] then st.2 else st.1 :: st.2

/-- The maximal `[a-z0-9]` runs of a character list, in order.  This is what
`replace(/[^a-z0-9]+/g, " ").trim().split(" ").filter(Boolean)` computes on a
lower-cased string, and joining the runs with single spaces is what
`replace(/[^a-z0-9]+/g, " ").trim()` computes. -/
def alnumTokens (l : List Char) : List (List Char) :=
  tokFinish (l.foldr tokStep ([], []))

/-! ## Text normalizer (§4.1; pipeline source `norm`, `titleTokens`, ...) -/

/-- ASCII lower-casing plus the NFKD-decompose-and-strip-diacritics step of
`norm`, folded into one character map (see the header note: exact on ASCII,
and on the common Latin diacritic letters). -/
def foldChar (c : Char) : Char :=
  let l := c.toLower
  match l with
  | 'ä' | 'Ä' | 'á' | 'à' | 'â' | 'Á' | 'À' | 'Â' => 'a'
  | 'é' | 'è' | 'ê' | 'ë' | 'É' | 'È' | 'Ê' => 'e'
  | 'í' | 'ì' | 'î' | 'Í' | 'Ì' | 'Î' => 'i'
  | 'ö' | 'Ö' | 'ó' | 'ò' | 'ô' | 'Ó' | 'Ò' | 'Ô' => 'o'
  | 'ü' | 'Ü' | 'ú' | 'ù' | 'û' | 'Ú' | 'Ù' | 'Û' => 'u'
  | 'ñ' | 'Ñ' => 'n'
  | 'ç' | 'Ç' => 'c'
  | _ => l

def isQuoteChar (c : Char) : Bool :=
  c = '’' || c = '\'' || c = '"'

/-- The lowercase/diacritic-fold plus quote-strip phase of `norm`. -/
def cleanChars (l : List Char) : List Char :=
  (l.map foldChar).filter (fun c => !isQuoteChar c)

def normTokens (s : String) : List String :=
  (alnumTokens (cleanChars s.data)).map String.mk

/-- `norm` from the pipeline source: lowercase, strip diacritics, drop
apostrophes/quotes, collapse each run of other non-alphanumerics to a single
space, trim.  (`replace(/[^a-z0-9]+/g, " ").trim()` is realised by joining
the maximal alphanumeric runs with single spaces; see `alnumTokens`.) -/
def norm (s : String) : String :=
  String.intercalate " " (normTokens s)

/-- `pickPrimaryAuthor`: first comma-separated segment, trimmed. -/
def pickPrimaryAuthor (authors : String) : String :=
  jsTrim ((splitListOn (fun c => c = ',') authors.data).headD "")

/-- `authorLastName`: last whitespace-separated part of the trimmed author. -/
def authorLastName (author : String) : String :=
  ((splitListOn (fun c => isJsWs c) (jsTrim author).data).filter
      (fun p => p ≠ "")).getLastD ""

def TITLE_STOPWORDS : List String :=
  ["the", "a", "an", "and", "or", "of", "to", "in", "on", "for", "with",
   "der", "die", "das", "ein", "eine", "und", "oder", "von", "zu", "mit", "im", "am",
   "le", "la", "les", "de", "des", "du", "et", "un", "une",
   "el", "los", "las", "del", "y", "un", "una",
   "il", "lo", "gli", "i", "dei", "degli"]

def primaryAuthorKey (authors : String) : String :=
  norm (pickPrimaryAuthor authors)

/-- `titleTokens`: `norm(title).split(" ").filter(Boolean)` recovers exactly
the alphanumeric runs that `norm` joined (they are nonempty and space-free),
i.e. `normTokens title`. -/
def titleTokens (title : String) : List String :=
  (normTokens title).filter (fun t => !TITLE_STOPWORDS.contains t)

def titleTokenKey (title : String) : String :=
  String.intercalate " " ((titleTokens title).take 10)

/-- `clamp(n, a, b) = Math.max(a, Math.min(b, n))`. -/
def clamp (n a b : ℚ) : ℚ := max a (min b n)

def STORY_STOPWORDS : List String :=
  ["fiction", "general", "novel", "book", "books", "story", "stories", "literature",
   "roman", "romane", "romanzo", "romance", "classic", "classics",
   "the", "and", "for", "with", "from", "into", "about", "that", "this", "have", "your",
   "der", "die", "das", "und", "mit", "von", "ein", "eine", "oder", "auch", "ueber",
   "del", "los", "las", "con", "para", "una", "uno", "por", "sobre",
   "le", "la", "les", "des", "avec", "dans", "pour", "une", "sur"]

def GENERIC_SUBJECTS : List String :=
  ["fiction", "fiction general", "general", "literature", "novel", "novels",
   "roman", "romance", "classic", "classics"]

/-- `MOTIF_LEXICON`, in source (object-literal) order. -/
def MOTIF_LEXICON : List (String × List String) :=
  [("coming_of_age",
    ["coming", "age", "adolescent", "adolescence", "teen", "teenager", "youth",
     "young", "boy", "girl", "bildungsroman"]),
   ("mentorship",
    ["mentor", "teacher", "guide", "elder", "older", "old", "wisdom",
     "apprentice", "student", "master"]),
   ("friendship",
    ["friend", "friendship", "companionship", "companions", "buddy", "bond"]),
   ("grief_loss",
    ["grief", "loss", "bereavement", "mourning", "widow", "widower", "death",
     "dead", "illness", "cancer"]),
   ("self_discovery",
    ["journey", "search", "identity", "self", "meaning", "healing", "growth",
     "awakening", "solitude", "loneliness"]),
   ("books_literary_world",
    ["books", "book", "bookseller", "library", "writer", "author", "literary",
     "manuscript", "publisher"])]

def MOTIF_LABEL_DE : List (String × String) :=
  [("coming_of_age", "Erwachsenwerden"),
   ("mentorship", "Mentorenschaft"),
   ("friendship", "Freundschaft"),
   ("grief_loss", "Verlust und Trauer"),
   ("self_discovery", "Selbstfindung"),
   ("books_literary_world", "Buecherwelt")]

/-- `isGenericSubject`: `norm` output already has single spaces, so the
`replace(/\s+/g, " ")` in the source is the identity there. -/
def isGenericSubject (subject : String) : Bool :=
  GENERIC_SUBJECTS.contains (norm subject)

/-- `extractStoryTerms`: the split of `norm input` on spaces is
`normTokens input` (tokens shorter than 4, including the empty one, are then
dropped). -/
def extractStoryTerms (input : String) : List String :=
  (((normTokens input).map (fun x => jsTrim x)).filter
      (fun x => 4 ≤ x.length)).filter (fun x => !STORY_STOPWORDS.contains x)

def extractMotifsFromText (input : String) : List String :=
  let tokens := extractStoryTerms input
  (MOTIF_LEXICON.filter (fun p => p.2.any (fun kw => tokens.contains (norm kw)))).map
    (fun p => p.1)

def tokenOverlapRatio (a b : List String) : ℚ :=
  if a.length = 0 ∨ b.length = 0 then 0
  else
    let sa := dedupKeepFirst a
    let sb := dedupKeepFirst b
    let inter : ℚ := (sa.countP (fun t => sb.contains t) : ℚ)
    let den := max sa.length sb.length
    if den = 0 then 0 else inter / (den : ℚ)

def isTitleNearDuplicateSameAuthor (aTitle bTitle : String) : Bool :=
  let ak := titleTokenKey aTitle
  let bk := titleTokenKey bTitle
  if ak = "" || bk = "" then false
  else if ak = bk then true
  else if strIncludes ak bk || strIncludes bk ak then true
  else
    let atoks := ((splitListOn (fun c => c = ' ') ak.data).filter (fun t => t ≠ ""))
    let btoks := ((splitListOn (fun c => c = ' ') bk.data).filter (fun t => t ≠ ""))
    decide ((7 : ℚ) / 10 ≤ tokenOverlapRatio atoks btoks)

/-! ## Library entries and the profile builders (§4.4; `computeProfile`,
`buildStoryProfile`) -/

/-- A library row as selected by the handler.  `subjects` is modelled
post-`parseSubjects` (the JSON/comma decoding of the stored text column,
spec §7(c)); `isbn`, `title`, `authors`, `notes`, `description` model the
source's `String(x || "")` coercions, `rating` models `number | null`. -/
structure LibraryEntry where
  id : Nat := 0
  isbn : String := ""
  title : String := ""
  authors : String := ""
  status : String := ""
  rating : Option ℚ := none
  notes : String := ""
  description : String := ""
  subjects : List String := []
deriving Repr, DecidableEq

/-- The seed filter of `computeProfile`/`buildStoryProfile`:
`e.status === "read" && typeof e.rating === "number" && (e.rating ?? 0) >= minRating`. -/
def likedPred (minRating : ℚ) (e : LibraryEntry) : Bool :=
  e.status = "read" &&
    (match e.rating with
     | some r => decide (minRating ≤ r)
     | none => false)

/-- Per-entry rating weight in `computeProfile`
(`clamp(rating, minRating, 10)`, with `rating` defaulting to `minRating`
when absent). -/
def profileEntryWeight (minRating : ℚ) (e : LibraryEntry) : ℚ :=
  clamp (e.rating.getD minRating) minRating 10

/-- The subject-weight accumulation loop body of `computeProfile`. -/
def profileSubjAddEntry (minRating : ℚ) (m : List (String × ℚ)) (e : LibraryEntry) :
    List (String × ℚ) :=
  let w := profileEntryWeight minRating e
  e.subjects.foldl
    (fun m s =>
      let k := jsTrim s
      if k = "" then m
      else mapAdd m k (w * (if isGenericSubject k then 0.15 else 1)))
    m

/-- The author-weight accumulation loop body of `computeProfile`. -/
def profileAuthAddEntry (minRating : ℚ) (m : List (String × ℚ)) (e : LibraryEntry) :
    List (String × ℚ) :=
  let w := profileEntryWeight minRating e
  (((splitListOn (fun c => c = ',') e.authors.data).map (fun x => jsTrim x)).filter
      (fun a => a ≠ "")).foldl (fun m a => mapAdd m a w) m

def profileSubjWeights (entries : List LibraryEntry) (minRating : ℚ) :
    List (String × ℚ) :=
  (entries.filter (likedPred minRating)).foldl (profileSubjAddEntry minRating) []

def profileAuthWeights (entries : List LibraryEntry) (minRating : ℚ) :
    List (String × ℚ) :=
  (entries.filter (likedPred minRating)).foldl (profileAuthAddEntry minRating) []

structure SubjectWeight where
  subject : String
  weight : ℚ
deriving Repr, DecidableEq

structure AuthorWeight where
  author : String
  weight : ℚ
deriving Repr, DecidableEq

structure Profile where
  likedCount : Nat
  topSubjects : List SubjectWeight
  topAuthors : List AuthorWeight
deriving Repr, DecidableEq

/-- `computeProfile` from the pipeline source. -/
def computeProfile (entries : List LibraryEntry) (minRating : ℚ) : Profile :=
  let liked := entries.filter (likedPred minRating)
  let subjW := profileSubjWeights entries minRating
  let authW := profileAuthWeights entries minRating
  { likedCount := liked.length
  , topSubjects :=
      ((sortDescBy (fun x : SubjectWeight => x.weight)
          (subjW.map (fun kv => ⟨kv.1, kv.2⟩))).take 6)
  , topAuthors :=
      ((sortDescBy (fun x : AuthorWeight => x.weight)
          (authW.map (fun kv => ⟨kv.1, kv.2⟩))).take 3) }

/-- Per-entry rating weight in `buildStoryProfile` (`clamp(...) / 10`). -/
def storyEntryWeight (minRating : ℚ) (e : LibraryEntry) : ℚ :=
  clamp (e.rating.getD minRating) minRating 10 / 10

/-- The concatenated title+description+notes+subjects text of an entry
(`textParts.filter(Boolean).join(" ")`). -/
def storyEntryText (e : LibraryEntry) : String :=
  String.intercalate " "
    (([e.title, e.description, e.notes, String.intercalate " " e.subjects]).filter
      (fun p => p ≠ ""))

def storyTermAddEntry (minRating : ℚ) (m : List (String × ℚ)) (e : LibraryEntry) :
    List (String × ℚ) :=
  let w := storyEntryWeight minRating e
  (dedupKeepFirst (extractStoryTerms (storyEntryText e))).foldl
    (fun m t => mapAdd m t w) m

def storyMotifAddEntry (minRating : ℚ) (m : List (String × ℚ)) (e : LibraryEntry) :
    List (String × ℚ) :=
  let w := storyEntryWeight minRating e
  (extractMotifsFromText (storyEntryText e)).foldl (fun m t => mapAdd m t w) m

def storyTermWeights (entries : List LibraryEntry) (minRating : ℚ) :
    List (String × ℚ) :=
  (entries.filter (likedPred minRating)).foldl (storyTermAddEntry minRating) []

def storyMotifWeights (entries : List LibraryEntry) (minRating : ℚ) :
    List (String × ℚ) :=
  (entries.filter (likedPred minRating)).foldl (storyMotifAddEntry minRating) []

structure TermWeight where
  term : String
  weight : ℚ
deriving Repr, DecidableEq

structure MotifWeight where
  motif : String
  weight : ℚ
deriving Repr, DecidableEq

structure StoryProfile where
  weights : List (String × ℚ)
  topTerms : List TermWeight
  motifWeights : List (String × ℚ)
  topMotifs : List MotifWeight
  normDenominator : ℚ
deriving Repr, DecidableEq

/-- `buildStoryProfile` from the pipeline source.  The trailing `|| 1` on the
denominator is JS falsiness on `0`. -/
def buildStoryProfile (entries : List LibraryEntry) (minRating : ℚ) : StoryProfile :=
  let weights := storyTermWeights entries minRating
  let motifWeights := storyMotifWeights entries minRating
  let topTerms : List TermWeight :=
    ((sortDescBy (fun x : TermWeight => x.weight)
        (weights.map (fun kv => ⟨kv.1, kv.2⟩))).take 20)
  let topMotifs : List MotifWeight :=
    ((sortDescBy (fun x : MotifWeight => x.weight)
        (motifWeights.map (fun kv => ⟨kv.1, kv.2⟩))).take 8)
  let s :=
    ((topTerms.take 10).foldl (fun acc x => acc + x.weight) 0) +
      ((topMotifs.take 4).foldl (fun acc x => acc + x.weight * 1.5) 0)
  { weights := weights
  , topTerms := topTerms
  , motifWeights := motifWeights
  , topMotifs := topMotifs
  , normDenominator := if s = 0 then 1 else s }

/-! ## OpenLibrary documents and the candidate scorer (§4.5; `scoreCandidate`) -/

/-- A search document.  `first_sentence` is modelled as the extracted string
(the source's `string | {value} | array` variants collapse to the string
`descriptionFromDoc` would pick, or `none`). -/
structure OpenLibraryDoc where
  key : Option String := none
  title : String := ""
  author_name : List String := []
  isbn : List String := []
  subject : List String := []
  language : List String := []
  first_sentence : Option String := none
deriving Repr, DecidableEq

structure Reason where
  label : String
  detail : String
deriving Repr, DecidableEq

structure Recommendation where
  recId : String := ""
  workKey : Option String := none
  isbn : String := ""
  title : String := ""
  authors : String := ""
  coverUrl : String := ""
  description : Option String := none
  score : ℚ := 0
  reasons : List Reason := []
  subjects : List String := []
deriving Repr, DecidableEq

def STORY_WEIGHT : ℚ := 60
def TOPIC_WEIGHT : ℚ := 28
def AUTHOR_WEIGHT : ℚ := 12
def GERMAN_SCORE_BONUS : ℚ := 4
def MAX_RECS_PER_PRIMARY_AUTHOR : Nat := 3

/-- `coverFromIsbn` (the `encodeURIComponent` is the identity on the
`[0-9Xx]`-only ISBNs produced by `bestIsbnFromDoc`). -/
def coverFromIsbn (isbn : String) : String :=
  "https://covers.openlibrary.org/b/isbn/" ++ isbn ++ "-M.jpg"

def digitsOnly (s : String) : String :=
  String.mk (s.data.filter (fun c => '0' ≤ c && c ≤ '9'))

def isbnChars (s : String) : String :=
  String.mk (s.data.filter (fun c => ('0' ≤ c && c ≤ '9') || c = 'X' || c = 'x'))

/-- `bestIsbnFromDoc`: first 13-digit ISBN, else first 10-char ISBN, cleaned
to `[0-9Xx]`. -/
def bestIsbnFromDoc (doc : OpenLibraryDoc) : Option String :=
  let isbn13 := doc.isbn.find? (fun x => (digitsOnly x).length = 13)
  let isbn10 := doc.isbn.find? (fun x => (isbnChars x).length = 10)
  match isbn13 with
  | some pick => some (isbnChars pick)
  | none =>
    match isbn10 with
    | some pick => some (isbnChars pick)
    | none => none

def authorsFromDoc (doc : OpenLibraryDoc) : String :=
  String.intercalate ", " (doc.author_name.take 3)

def subjectsFromDoc (doc : OpenLibraryDoc) : List String :=
  doc.subject.take 12

def workKeyFromDoc (doc : OpenLibraryDoc) : Option String :=
  match doc.key with
  | some k => if k.startsWith "/works/" then some k else none
  | none => none

def descriptionFromDoc (doc : OpenLibraryDoc) : Option String :=
  match doc.first_sentence with
  | none => none
  | some s => let t := jsTrim s; if t = "" then none else some t

/-- JS `toLowerCase` restricted to ASCII plus the German capital umlauts
(the only non-ASCII case folds `looksGerman` can observe). -/
def jsLowerChar (c : Char) : Char :=
  match c with
  | 'Ä' => 'ä'
  | 'Ö' => 'ö'
  | 'Ü' => 'ü'
  | _ => c.toLower

def jsToLower (s : String) : String :=
  String.mk (s.data.map jsLowerChar)

def GERMAN_HINTS : List String :=
  ["und", "mit", "der", "die", "das", "ein", "eine", "ist", "nicht", "auch",
   "wird", "zum", "zur", "den", "dem"]

/-- `looksGerman`: umlaut/eszett regex, else at least two German hint words. -/
def looksGerman (text : String) : Bool :=
  let raw := jsToLower text
  if jsTrim raw = "" then false
  else if raw.data.any (fun c => c = 'ä' || c = 'ö' || c = 'ü' || c = 'ß') then true
  else
    let words := normTokens raw
    2 ≤ GERMAN_HINTS.countP (fun h => words.contains h)

def isGermanDoc (doc : OpenLibraryDoc) : Bool :=
  let langs := doc.language.map jsToLower
  if langs.any (fun l =>
      l = "de" || l = "ger" || l = "deu" ||
        strIncludes l "/ger" || strIncludes l "/deu" || strIncludes l "deutsch") then
    true
  else
    let firstSentence := (descriptionFromDoc doc).getD ""
    looksGerman (jsTrim (doc.title ++ " " ++ firstSentence))

structure ScoreResult where
  score : ℚ
  reasons : List Reason
deriving Repr, DecidableEq

/-- Motif display label (`MOTIF_LABEL_DE[m] || m.replace(/_/g, " ")`). -/
def motifLabelDe (m : String) : String :=
  (mapGet MOTIF_LABEL_DE m).getD (m.replace "_" " ")

/-- The topic-overlap accumulator of `scoreCandidate` (its `hits` value):
matched top subjects and the raw topic score. -/
def scoreTopicHits (doc : OpenLibraryDoc) (profile : Profile) : List String × ℚ :=
  let normalizedSubjects := (subjectsFromDoc doc).map norm
  (profile.topSubjects.map (fun s => s.subject)).foldl
    (fun (acc : List String × ℚ) s =>
      let ns := norm s
      if normalizedSubjects.contains ns then
        (acc.1 ++ [s], acc.2 + (if isGenericSubject s then 0.25 else 1))
      else acc)
    ([], 0)

/-- The author hit of `scoreCandidate` (its `authHit` value). -/
def scoreAuthHit (doc : OpenLibraryDoc) (profile : Profile) : Option String :=
  (profile.topAuthors.map (fun a => a.author)).find?
    (fun a => (doc.author_name.map norm).contains (norm a))

/-- The story input text of `scoreCandidate` (its `storyInput` value). -/
def scoreStoryInput (doc : OpenLibraryDoc) : String :=
  doc.title ++ " " ++ String.intercalate " " (subjectsFromDoc doc)

/-- The term half of `scoreCandidate`'s story accumulator (its `story1`). -/
def scoreStory1 (doc : OpenLibraryDoc) (storyProfile : StoryProfile) :
    ℚ × List TermWeight :=
  (dedupKeepFirst (extractStoryTerms (scoreStoryInput doc))).foldl
    (fun (acc : ℚ × List TermWeight) t =>
      match mapGet storyProfile.weights t with
      | none => acc
      | some w => if w = 0 then acc else (acc.1 + w, acc.2 ++ [⟨t, w⟩]))
    (0, [])

/-- The motif half of `scoreCandidate`'s story accumulator (its `story2`). -/
def scoreStory2 (doc : OpenLibraryDoc) (storyProfile : StoryProfile) :
    ℚ × List MotifWeight :=
  (extractMotifsFromText (scoreStoryInput doc)).foldl
    (fun (acc : ℚ × List MotifWeight) m =>
      match mapGet storyProfile.motifWeights m with
      | none => acc
      | some w => if w = 0 then acc else (acc.1 + w * 1.5, acc.2 ++ [⟨m, w⟩]))
    ((scoreStory1 doc storyProfile).1, [])

/-- `storyNorm` in `scoreCandidate`: `Math.min(1, storyRaw / denominator)`. -/
def scoreStoryNorm (doc : OpenLibraryDoc) (storyProfile : StoryProfile) : ℚ :=
  min 1 ((scoreStory2 doc storyProfile).1 / storyProfile.normDenominator)

/-- `topicNorm` in `scoreCandidate`. -/
def scoreTopicNorm (doc : OpenLibraryDoc) (profile : Profile) : ℚ :=
  if (profile.topSubjects.map (fun s => s.subject)).length = 0 then 0
  else min 1 ((scoreTopicHits doc profile).2 /
    min 3 ((profile.topSubjects.map (fun s => s.subject)).length : ℚ))

/-- `scoreCandidate` from the pipeline source, assembled from the named
component accumulators above (which inline its `let`-chain one-for-one). -/
def scoreCandidate (doc : OpenLibraryDoc) (profile : Profile)
    (storyProfile : StoryProfile) : ScoreResult :=
  let subjHits := (scoreTopicHits doc profile).1
  let authHit := scoreAuthHit doc profile
  let storyHits := sortDescBy (fun x : TermWeight => x.weight)
    (scoreStory1 doc storyProfile).2
  let motifHits := sortDescBy (fun x : MotifWeight => x.weight)
    (scoreStory2 doc storyProfile).2
  let authorNorm : ℚ := if authHit.isSome then 1 else 0
  let score := STORY_WEIGHT * scoreStoryNorm doc storyProfile +
    TOPIC_WEIGHT * scoreTopicNorm doc profile +
    AUTHOR_WEIGHT * authorNorm
  let reasons : List Reason :=
    (if motifHits ≠ [] then
      [⟨"Story-Ähnlichkeit",
        "ähnlicher Erzählkern: " ++ String.intercalate ", "
          ((motifHits.take 2).map (fun x => "„" ++ motifLabelDe x.motif ++ "“"))⟩]
     else if storyHits ≠ [] then
      [⟨"Story-Ähnlichkeit",
        "ähnliche Schwerpunkte: " ++ String.intercalate ", "
          ((storyHits.take 2).map (fun x => "„" ++ x.term ++ "“"))⟩]
     else []) ++
    (if subjHits ≠ [] then
      [⟨"Themen-Überschneidung",
        "passt zu „" ++ subjHits.headD "" ++ "“ (kommt oft in deinen Top-Büchern vor)"⟩]
     else []) ++
    (if authHit.isSome then
      [⟨"Autor-Ähnlichkeit", "Autor:in taucht in deinem Profil auf (niedrig gewichtet)"⟩]
     else [])
  { score := score, reasons := reasons.take 3 }

/-! ## Identity resolution and the dedup / diversification engine (§4.2, §4.6)

The network-backed collaborators of the handler are abstracted as oracle
functions (`Net`).  Call counting (`Nat` components) counts oracle
invocations, for the zero-network-calls property; the cross-request memo
caches are modelled as empty at the start of a request. -/

structure Net where
  isbnToWorkKey : String → Option String
  workKeyByTitleAuthor : String → String → Option String
  olWorkToQid : String → Option String
  wdQidByTitleAuthor : String → String → Option String
  search : String → ℚ → List OpenLibraryDoc
  olDescription : String → Option String
  wdDescriptionByQidKey : String → Option String

/-- JS truthiness of a `string | null` value: `""` and `null` are falsy. -/
def truthyOpt : Option String → Option String
  | some s => if s = "" then none else some s
  | none => none

/-- `resolveCanonicalKey` from the pipeline source, with an invocation count:
(a) work-key → Wikidata QID, (b) title+author → QID, (c) `ol:{workKey}`,
(d) `na:{authorKey}|{titleTokenKey}`. -/
def resolveCanonicalKey (net : Net) (workKey : Option String)
    (title authors : String) : Option String × Nat :=
  let wk := truthyOpt workKey
  let step1 : Option String × Nat :=
    match wk with
    | some w => (truthyOpt (net.olWorkToQid w), 1)
    | none => (none, 0)
  match step1.1 with
  | some qid => (some ("wd:" ++ qid), step1.2)
  | none =>
    let calls := step1.2 + 1
    match truthyOpt (net.wdQidByTitleAuthor title authors) with
    | some q => (some ("wd:" ++ q), calls)
    | none =>
      match wk with
      | some w => (some ("ol:" ++ w), calls)
      | none =>
        let ak := primaryAuthorKey authors
        let tk := titleTokenKey title
        if tk ≠ "" then (some ("na:" ++ ak ++ "|" ++ tk), calls)
        else (none, calls)

structure PreferenceSignals where
  likedKeys : List String := []
  dislikedKeys : List String := []
deriving Repr, DecidableEq

/-- `buildPreferenceKeys`: the multi-key set used against stored
like/dislike signals. -/
def buildPreferenceKeys (rck rwk : Option String) (authorKey tKey isbn : String) :
    List String :=
  dedupKeepFirst
    ((match truthyOpt rck with | some c => [c] | none => []) ++
     (match truthyOpt rwk with | some w => ["ol:" ++ w] | none => []) ++
     (if authorKey ≠ "" && tKey ≠ "" then ["na:" ++ authorKey ++ "|" ++ tKey] else []) ++
     (if isbn ≠ "" then ["isbn:" ++ isbn] else []))

/-! ### Owned keys (`buildOwnedKeys` and the owned canonical-key loop) -/

/-- The `normalizedIsbns` / `ownedIsbn` set: trimmed nonempty entry ISBNs,
first occurrences. -/
def ownedIsbnOf (entries : List LibraryEntry) : List String :=
  dedupKeepFirst ((entries.map (fun e => jsTrim e.isbn)).filter (fun s => s ≠ ""))

/-- The strict `ownedCanonical` pair set: `{authorKey}|{titleTokenKey}` for
entries with a nonempty title-token key (JS `Set` modelled as a list;
only membership is consumed). -/
def ownedCanonicalPairsOf (entries : List LibraryEntry) : List String :=
  entries.foldl
    (fun acc e =>
      let title := jsTrim e.title
      let authorKey := primaryAuthorKey e.authors
      let tKey := titleTokenKey title
      if tKey = "" then acc else acc ++ [authorKey ++ "|" ++ tKey])
    []

def ownedAuthorKeysOf (entries : List LibraryEntry) : List String :=
  entries.foldl
    (fun acc e =>
      let ak := primaryAuthorKey e.authors
      if ak = "" then acc else acc ++ [ak])
    []

/-- The loop body of `ownedTitlesByPrimaryAuthor` construction. -/
def ownedTitlesAdd (m : List (String × List String)) (e : LibraryEntry) :
    List (String × List String) :=
  let title := jsTrim e.title
  let authorKey := primaryAuthorKey e.authors
  let tKey := titleTokenKey title
  if tKey = "" then m
  else if authorKey = "" then m
  else mapSet m authorKey ((mapGetD m authorKey []) ++ [title])

/-- `ownedTitlesByPrimaryAuthor`: trimmed titles (with nonempty token key)
grouped by primary-author key. -/
def ownedTitlesByPrimaryAuthorOf (entries : List LibraryEntry) :
    List (String × List String) :=
  entries.foldl ownedTitlesAdd []

/-- The network half of `buildOwnedKeys`: owned work keys via ISBN lookups
(`pMapLimit` over the distinct ISBNs) plus the per-entry title/author
fallback. -/
def buildOwnedWork (net : Net) (entries : List LibraryEntry) : List String × Nat :=
  let normalizedIsbns := ownedIsbnOf entries
  let byIsbn := normalizedIsbns.map (fun isbn => (isbn, net.isbnToWorkKey isbn))
  let ownedWork1 := byIsbn.foldl
    (fun acc p => match truthyOpt p.2 with | some w => acc ++ [w] | none => acc) []
  let fb := entries.map (fun e =>
    let isbn := jsTrim e.isbn
    let title := jsTrim e.title
    let authors := jsTrim e.authors
    let fromIsbn := if isbn ≠ "" then (mapGet byIsbn isbn).getD none else none
    match truthyOpt fromIsbn with
    | some w => ((some w : Option String), 0)
    | none =>
      if title = "" then (none, 0)
      else (net.workKeyByTitleAuthor title authors, 1))
  let ownedWork := ownedWork1 ++ fb.foldl
    (fun acc p => match truthyOpt p.1 with | some w => acc ++ [w] | none => acc) []
  (ownedWork, normalizedIsbns.length + fb.foldl (fun n p => n + p.2) 0)

/-- One entry of the owned resolved-canonical-key loop of the handler (one
ISBN lookup for entries with an ISBN, then `resolveCanonicalKey`). -/
def ownedCanonStep (net : Net) (acc : List String × Nat) (e : LibraryEntry) :
    List String × Nat :=
  let et := jsTrim e.title
  let ea := jsTrim e.authors
  let ei := jsTrim e.isbn
  let step : Option String × Nat :=
    if ei ≠ "" then (net.isbnToWorkKey ei, 1) else (none, 0)
  let r := resolveCanonicalKey net step.1 et ea
  match truthyOpt r.1 with
  | some ck => (acc.1 ++ [ck], acc.2 + step.2 + r.2)
  | none => (acc.1, acc.2 + step.2 + r.2)

/-- The owned resolved-canonical-key loop of the handler. -/
def ownedCanonicalResolvedKeys (net : Net) (entries : List LibraryEntry) :
    List String × Nat :=
  entries.foldl (ownedCanonStep net) ([], 0)

structure OwnedSets where
  ownedIsbn : List String := []
  ownedWork : List String := []
  ownedCanonicalPairs : List String := []
  ownedTitlesByAuthor : List (String × List String) := []
  ownedAuthorKeys : List String := []
  ownedCanonicalResolved : List String := []
deriving Repr, DecidableEq

/-- All owned-key sets, exactly as the handler assembles them before the
candidate loop. -/
def ownedKeysFor (net : Net) (entries : List LibraryEntry) : OwnedSets × Nat :=
  let bw := buildOwnedWork net entries
  let ocr := ownedCanonicalResolvedKeys net entries
  ({ ownedIsbn := ownedIsbnOf entries
    , ownedWork := bw.1
    , ownedCanonicalPairs := ownedCanonicalPairsOf entries
    , ownedTitlesByAuthor := ownedTitlesByPrimaryAuthorOf entries
    , ownedAuthorKeys := ownedAuthorKeysOf entries
    , ownedCanonicalResolved := ocr.1 }, bw.2 + ocr.2)

/-! ### The candidate acceptance loop (source handler, dedup & diversification) -/

/-- One element of the handler's `scored` array.  The source's `item.rec`
field is named `cand` here (`rec` collides with the auto-generated structure
recursor name). -/
structure ScoredItem where
  workKey : Option String := none
  cand : Recommendation := {}
deriving Repr, DecidableEq

structure LoopState where
  out : List Recommendation := []
  seenIsbn : List String := []
  seenWorkOrIsbn : List String := []
  seenCanonical : List String := []
  seenTitlesByAuthor : List (String × List String) := []
  perAuthorCount : List (String × Nat) := []
  workByTitleCache : List (String × Option String) := []
  calls : Nat := 0
deriving Repr, DecidableEq

/-- `fallbackCanonicalKey` from the handler. -/
def fallbackCanonicalKey (r : Recommendation) : String :=
  let authorKey := primaryAuthorKey r.authors
  let tKey := titleTokenKey r.title
  if tKey ≠ "" then "na:" ++ authorKey ++ "|" ++ tKey
  else "na:" ++ norm r.title ++ "|" ++ norm (authorLastName (pickPrimaryAuthor r.authors))

/-- The conditional canonical-key resolution of one loop iteration
(`if (needsOwnedCanonicalCheck || !resolvedWorkKey) resolveCanonicalKey(...)`). -/
def loopCanonStep (net : Net) (needs : Bool) (rwk2 : Option String)
    (title authors : String) : Option String × Nat :=
  if needs || truthyOpt rwk2 = none then resolveCanonicalKey net rwk2 title authors
  else (none, 0)

/-- `workOrIsbnKey = resolvedWorkKey ? wk:... : isbn:...`. -/
def loopWorkOrIsbnKey (rwk2 : Option String) (isbn : String) : String :=
  match truthyOpt rwk2 with
  | some w => "wk:" ++ w
  | none => "isbn:" ++ isbn

/-- `ck = resolvedCanonicalKey ?? (resolvedWorkKey ? wk:... : fallbackCanonicalKey(r))`. -/
def loopCk (rck rwk2 : Option String) (r1 : Recommendation) : String :=
  match rck with
  | some c => c
  | none =>
    match truthyOpt rwk2 with
    | some w => "wk:" ++ w
    | none => fallbackCanonicalKey r1

/-- `recId = resolvedCanonicalKey || (resolvedWorkKey ? wk:... : isbn:...)`. -/
def loopRecId (rck rwk2 : Option String) (isbn : String) : String :=
  match rck with
  | some c => c
  | none => loopWorkOrIsbnKey rwk2 isbn

/-- The pure per-candidate computations of one iteration of the handler's
`for (const item of scored)` loop: resolved work key (with the per-request
memo cache), resolved canonical key, preference keys and boost, and the
dedup keys.  The source computes these values at their use sites along the
iteration; they are all pure in the oracles and are gathered up-front here so
that the drop/accept decision chain below stays shallow. -/
structure StepCtx where
  r1 : Recommendation
  authorKey : String
  tKey : String
  strictOwnedKey : String
  rwk2 : Option String
  cache1 : List (String × Option String)
  callsAdd : Nat
  rck : Option String
  preferenceKeys : List String
  workOrIsbnKey : String
  ck : String
  recId : String

def mkStepCtx (net : Net) (owned : OwnedSets) (prefs : PreferenceSignals)
    (s : LoopState) (item : ScoredItem) : StepCtx :=
  let r0 := { item.cand with recId := "", workKey := item.workKey }
  let wk := item.workKey
  let authorKey := primaryAuthorKey r0.authors
  let tKey := titleTokenKey r0.title
  let strictOwnedKey := authorKey ++ "|" ++ tKey
  let rwkStep : Option String × (List (String × Option String) × Nat) :=
    match truthyOpt wk with
    | some w => (some w, (s.workByTitleCache, 0))
    | none =>
      let cacheKey := authorKey ++ "|" ++ (if tKey ≠ "" then tKey else norm r0.title)
      if mapHas s.workByTitleCache cacheKey then
        ((mapGet s.workByTitleCache cacheKey).getD none, (s.workByTitleCache, 0))
      else
        let v := net.workKeyByTitleAuthor r0.title r0.authors
        (v, (mapSet s.workByTitleCache cacheKey v, 1))
  let rwk1 := rwkStep.1
  let ver : Option String × Nat :=
    if authorKey ≠ "" && owned.ownedAuthorKeys.contains authorKey then
      (net.isbnToWorkKey r0.isbn, 1)
    else (none, 0)
  let rwk2 := match truthyOpt ver.1 with
    | some w => some w
    | none => rwk1
  let needsOwnedCanonicalCheck :=
    authorKey ≠ "" && owned.ownedAuthorKeys.contains authorKey
  let canonStep := loopCanonStep net needsOwnedCanonicalCheck rwk2 r0.title r0.authors
  let rck := canonStep.1
  let preferenceKeys := buildPreferenceKeys rck rwk2 authorKey tKey r0.isbn
  let r1 :=
    if preferenceKeys.any (fun k => prefs.likedKeys.contains k) then
      { r0 with score := r0.score + 8,
                reasons := (⟨"Deine Präferenz", "passt zu mir (vorher markiert)"⟩ ::
                  r0.reasons).take 3 }
    else r0
  { r1 := r1, authorKey := authorKey, tKey := tKey, strictOwnedKey := strictOwnedKey
  , rwk2 := rwk2, cache1 := rwkStep.2.1, callsAdd := rwkStep.2.2 + ver.2 + canonStep.2
  , rck := rck, preferenceKeys := preferenceKeys
  , workOrIsbnKey := loopWorkOrIsbnKey rwk2 r1.isbn
  , ck := loopCk rck rwk2 r1, recId := loopRecId rck rwk2 r1.isbn }

/-- The state after the memo-cache / call-count updates of one iteration
(every `continue` before any seen-set mutation returns this state). -/
def stepBase (s : LoopState) (c : StepCtx) : LoopState :=
  { s with workByTitleCache := c.cache1, calls := s.calls + c.callsAdd }

/-- State after `seenWorkOrIsbn.add(workOrIsbnKey)`. -/
def stepS1 (s : LoopState) (c : StepCtx) : LoopState :=
  { stepBase s c with
    seenWorkOrIsbn := (stepBase s c).seenWorkOrIsbn ++ [c.workOrIsbnKey] }

/-- State after `seenCanonical.add(ck)`. -/
def stepS2 (s : LoopState) (c : StepCtx) : LoopState :=
  { stepS1 s c with seenCanonical := (stepS1 s c).seenCanonical ++ [c.ck] }

/-- State after the per-author count increment and seen-title push (the
source's two consecutive `if (authorKey)` blocks). -/
def stepS3 (s : LoopState) (c : StepCtx) : LoopState :=
  if c.authorKey ≠ "" then
    { stepS2 s c with
      perAuthorCount :=
        (mapSet (stepS2 s c).perAuthorCount c.authorKey
          (mapGetD (stepS2 s c).perAuthorCount c.authorKey 0 + 1)),
      seenTitlesByAuthor :=
        (mapSet (stepS2 s c).seenTitlesByAuthor c.authorKey
          ((mapGetD (stepS2 s c).seenTitlesByAuthor c.authorKey []) ++ [c.r1.title])) }
  else stepS2 s c

/-- The drop/accept decision chain of one iteration of the handler's
`for (const item of scored)` loop, in source order; each `continue` returns
the state accumulated so far. -/
def processOneWith (owned : OwnedSets) (prefs : PreferenceSignals) (s : LoopState)
    (c : StepCtx) : LoopState :=
  if (match c.rck with
      | some k => owned.ownedCanonicalResolved.contains k
      | none => false) then stepBase s c
  else if c.preferenceKeys.any (fun k => prefs.dislikedKeys.contains k) then stepBase s c
  else if owned.ownedIsbn.contains c.r1.isbn then stepBase s c
  else if (stepBase s c).seenIsbn.contains c.r1.isbn then stepBase s c
  else if c.tKey ≠ "" && owned.ownedCanonicalPairs.contains c.strictOwnedKey then
    stepBase s c
  else if c.authorKey ≠ "" &&
      ((mapGetD owned.ownedTitlesByAuthor c.authorKey []).any
        (fun ownedTitle => isTitleNearDuplicateSameAuthor c.r1.title ownedTitle)) then
    stepBase s c
  else if (match truthyOpt c.rwk2 with
           | some w => owned.ownedWork.contains w
           | none => false) then stepBase s c
  else if (stepBase s c).seenWorkOrIsbn.contains c.workOrIsbnKey then stepBase s c
  else if c.authorKey ≠ "" &&
      ((mapGetD (stepS1 s c).seenTitlesByAuthor c.authorKey []).any
        (fun seenTitle => isTitleNearDuplicateSameAuthor c.r1.title seenTitle)) then
    stepS1 s c
  else if (stepS1 s c).seenCanonical.contains c.ck then stepS1 s c
  else if c.authorKey ≠ "" &&
      MAX_RECS_PER_PRIMARY_AUTHOR ≤ mapGetD (stepS2 s c).perAuthorCount c.authorKey 0 then
    stepS2 s c
  else
    { out := (stepS3 s c).out ++ [{ c.r1 with workKey := c.rwk2, recId := c.recId }]
    , seenIsbn := (stepS3 s c).seenIsbn ++ [c.r1.isbn]
    , seenWorkOrIsbn := (stepS3 s c).seenWorkOrIsbn
    , seenCanonical := (stepS3 s c).seenCanonical
    , seenTitlesByAuthor := (stepS3 s c).seenTitlesByAuthor
    , perAuthorCount := (stepS3 s c).perAuthorCount
    , workByTitleCache := (stepS3 s c).workByTitleCache
    , calls := (stepS3 s c).calls }

/-- One iteration of the handler's candidate loop. -/
def processOne (net : Net) (owned : OwnedSets) (prefs : PreferenceSignals)
    (s : LoopState) (item : ScoredItem) : LoopState :=
  processOneWith owned prefs s (mkStepCtx net owned prefs s item)

/-- The handler's candidate loop: fold `processOne` with the
`if (out.length >= limit) break` guard. -/
def processScored (net : Net) (owned : OwnedSets) (prefs : PreferenceSignals)
    (limit : Nat) (scored : List ScoredItem) : LoopState :=
  scored.foldl
    (fun s item => if limit ≤ s.out.length then s else processOne net owned prefs s item)
    {}

/-! ### Request-parameter derivation and test fixtures -/

/-- `parseInt(...) || d`: `NaN` (unparseable, modelled `none`) and `0` are
falsy and fall back to the default. -/
def jsParsedOr (o : Option Int) (d : Int) : Int :=
  match o with
  | none => d
  | some 0 => d
  | some n => n

/-- The handler's effective result limit:
`const requestedLimit = parseInt(String(req.query.limit ?? "15"), 10) || 15;`
`const limit = requestedLimit >= 20 ? 20 : 15;` -/
def effectiveLimit (requestedRaw : Option Int) : Nat :=
  let requestedLimit := jsParsedOr requestedRaw 15
  if 20 ≤ requestedLimit then 20 else 15

/-- An oracle on which every network lookup fails / returns nothing
(used for concrete runs). -/
def nullNet : Net :=
  { isbnToWorkKey := fun _ => none
  , workKeyByTitleAuthor := fun _ _ => none
  , olWorkToQid := fun _ => none
  , wdQidByTitleAuthor := fun _ _ => none
  , search := fun _ _ => []
  , olDescription := fun _ => none
  , wdDescriptionByQidKey := fun _ => none }

/-- Concrete library for the C2 counterexample: an owned read book with an
empty author field. -/
def ceC2Entries : List LibraryEntry :=
  [{ id := 1, isbn := "1111111111111", title := "Alpha Beta Gamma Delta",
     authors := "", status := "read", rating := some 9, subjects := ["grief"] }]

/-- Concrete scored candidate for the C2 counterexample: same (empty) primary
author, near-duplicate title (token-key containment), different ISBN. -/
def ceC2Scored : List ScoredItem :=
  [{ workKey := none,
     cand := { recId := "seed:2222222222222", workKey := none,
               isbn := "2222222222222", title := "Alpha Beta Gamma",
               authors := "", coverUrl := coverFromIsbn "2222222222222",
               description := none, score := 50, reasons := [],
               subjects := ["grief"] } }]

/-- Concrete scored candidates for the C6 counterexample: four books whose
author field is empty (primary-author key `""`), pairwise distinct. -/
def ceC6Scored : List ScoredItem :=
  [{ workKey := none,
     cand := { recId := "seed:3000000000001", workKey := none, isbn := "3000000000001",
               title := "Red Car", authors := "", coverUrl := "", description := none,
               score := 40, reasons := [], subjects := [] } },
   { workKey := none,
     cand := { recId := "seed:3000000000002", workKey := none, isbn := "3000000000002",
               title := "Blue Sky", authors := "", coverUrl := "", description := none,
               score := 30, reasons := [], subjects := [] } },
   { workKey := none,
     cand := { recId := "seed:3000000000003", workKey := none, isbn := "3000000000003",
               title := "Green Tree", authors := "", coverUrl := "", description := none,
               score := 20, reasons := [], subjects := [] } },
   { workKey := none,
     cand := { recId := "seed:3000000000004", workKey := none, isbn := "3000000000004",
               title := "Dark Moon", authors := "", coverUrl := "", description := none,
               score := 10, reasons := [], subjects := [] } }]

/-! ### Characterisation of one loop step -/

/-- The shape of every key `resolveCanonicalKey` can produce. -/
def canonShape (c : String) : Prop :=
  (∃ x, c = "wd:" ++ x) ∨ (∃ x, c = "ol:" ++ x) ∨ (∃ x, c = "na:" ++ x)

/-- The shape of the loop's `workKey`/ISBN dedup keys. -/
def wkIsbnShape (c : String) : Prop :=
  (∃ x, c = "wk:" ++ x) ∨ (∃ x, c = "isbn:" ++ x)

/-- The seen-key sets only grow across a loop iteration. -/
def StepGrow (s s' : LoopState) : Prop :=
  (∀ x ∈ s.seenIsbn, x ∈ s'.seenIsbn) ∧
  (∀ x ∈ s.seenWorkOrIsbn, x ∈ s'.seenWorkOrIsbn) ∧
  (∀ x ∈ s.seenCanonical, x ∈ s'.seenCanonical)

/-- A `continue`-d iteration: no output, no per-author count change. -/
def StepDrop (s s' : LoopState) : Prop :=
  s'.out = s.out ∧ s'.perAuthorCount = s.perAuthorCount

/-- An accepting iteration: everything the claims need about the pushed
recommendation. -/
def StepAccept (owned : OwnedSets) (s s' : LoopState) (item : ScoredItem)
    (r : Recommendation) : Prop :=
  s'.out = s.out ++ [r] ∧
  r.isbn = item.cand.isbn ∧
  r.title = item.cand.title ∧
  r.authors = item.cand.authors ∧
  r.isbn ∉ owned.ownedIsbn ∧
  r.isbn ∉ s.seenIsbn ∧
  s'.seenIsbn = s.seenIsbn ++ [r.isbn] ∧
  (primaryAuthorKey r.authors ≠ "" →
    ∀ t ∈ mapGetD owned.ownedTitlesByAuthor (primaryAuthorKey r.authors) [],
      ¬ isTitleNearDuplicateSameAuthor r.title t) ∧
  ((canonShape r.recId ∧ r.recId ∉ s.seenCanonical ∧ r.recId ∈ s'.seenCanonical ∧
      r.recId ∉ owned.ownedCanonicalResolved) ∨
    (wkIsbnShape r.recId ∧ r.recId ∉ s.seenWorkOrIsbn ∧ r.recId ∈ s'.seenWorkOrIsbn)) ∧
  (primaryAuthorKey r.authors ≠ "" →
    mapGetD s.perAuthorCount (primaryAuthorKey r.authors) 0 < MAX_RECS_PER_PRIMARY_AUTHOR ∧
    s'.perAuthorCount = mapSet s.perAuthorCount (primaryAuthorKey r.authors)
      (mapGetD s.perAuthorCount (primaryAuthorKey r.authors) 0 + 1)) ∧
  (primaryAuthorKey r.authors = "" → s'.perAuthorCount = s.perAuthorCount)

/-- Every recommendation already in `out` keeps its dedup key registered in
the corresponding seen-set, and registered canonical keys avoid the owned
canonical keys. -/
def RecRegistered (owned : OwnedSets) (s : LoopState) (r : Recommendation) : Prop :=
  (canonShape r.recId ∧ r.recId ∈ s.seenCanonical ∧
      r.recId ∉ owned.ownedCanonicalResolved) ∨
  (wkIsbnShape r.recId ∧ r.recId ∈ s.seenWorkOrIsbn)

def C1Inv (owned : OwnedSets) (s : LoopState) : Prop :=
  (∀ r ∈ s.out, RecRegistered owned s r) ∧
    (s.out.map (fun r => r.recId)).Nodup

def C2Inv (owned : OwnedSets) (s : LoopState) : Prop :=
  ∀ r ∈ s.out,
    (r.isbn ∉ owned.ownedIsbn ∧ r.isbn ≠ "" ∧ jsTrim r.isbn = r.isbn) ∧
    (primaryAuthorKey r.authors ≠ "" →
      ∀ t ∈ mapGetD owned.ownedTitlesByAuthor (primaryAuthorKey r.authors) [],
        ¬ isTitleNearDuplicateSameAuthor r.title t)

def C6Inv (s : LoopState) : Prop :=
  ∀ a : String, a ≠ "" →
    (s.out.filter (fun r => decide (primaryAuthorKey r.authors = a))).length =
        mapGetD s.perAuthorCount a 0 ∧
      mapGetD s.perAuthorCount a 0 ≤ MAX_RECS_PER_PRIMARY_AUTHOR

/-! ### Seed-mode comparison (C4) and rating monotonicity (C9) -/

/-- The seed filter as the specification words it (§4.4): an entry seeds the
profile iff its status is `read` and, when `seedMode = liked`, its rating is
at least `minRating`; when `seedMode = allRead` every read entry qualifies
regardless of rating.  (Spec-worded definition, for comparison with the
source's `computeProfile`, which receives no seed mode at all.) -/
def seedFilterSpec (seedMode : String) (minRating : ℚ) (e : LibraryEntry) : Bool :=
  e.status = "read" &&
    (seedMode = "allRead" ||
      (match e.rating with
       | some r => decide (minRating ≤ r)
       | none => false))

/-- Failing input for C4: one read entry rated 3, with request parameters
`minRating = 4` and `seedMode = allRead` (what the UI's
"Alle gelesenen (auch ohne Bewertung)" option sends). -/
def ceC4Entries : List LibraryEntry :=
  [{ id := 7, isbn := "", title := "Der Prozess", authors := "Franz Kafka",
     status := "read", rating := some 3 }]

/-- Concrete entry for the C9 witness. -/
def ceC9Entry : LibraryEntry :=
  { id := 3, isbn := "", title := "Meer und Trauer", authors := "Anna Muster",
    status := "read", rating := some 5, subjects := ["grief", "ocean"] }

/-! ### `pMapLimit` (C7): a small-step model of the bounded worker pool

JS is single-threaded: a worker runs synchronously from the top of its
`while` loop through claiming `nextIndex` up to the `await` on the mapper, so
index claiming is atomic.  A scheduler word (`List Nat` of worker ids) picks
which worker advances next; each worker is either about to claim an index,
awaiting the mapper for a claimed index, or finished. -/

inductive WStatus where
  | atLoop : WStatus
  | running : Nat → WStatus
  | done : WStatus
deriving Repr, DecidableEq

structure PMapState (β : Type) where
  nextIndex : Nat := 0
  out : List (Option β) := []
  workers : List WStatus := []
deriving Repr, DecidableEq

def wIsRunning : WStatus → Bool
  | WStatus.running _ => true
  | _ => false

/-- One worker transition: claim the next index (becoming `done` past the end,
as the source's `if (i >= items.length) return`), or complete the awaited
mapper call, writing `out[i]`. -/
def pStepAt (items : List α) (mapper : α → β) (s : PMapState β) (w : Nat) :
    WStatus → PMapState β
  | WStatus.atLoop =>
    if s.nextIndex < items.length then
      { s with nextIndex := s.nextIndex + 1
             , workers := listSet s.workers w (WStatus.running s.nextIndex) }
    else
      { s with nextIndex := s.nextIndex + 1
             , workers := listSet s.workers w WStatus.done }
  | WStatus.running i =>
    if hi : i < items.length then
      { s with out := listSet s.out i (some (mapper items[i]))
             , workers := listSet s.workers w WStatus.atLoop }
    else s
  | WStatus.done => s

def pStep (items : List α) (mapper : α → β) (s : PMapState β) (w : Nat) :
    PMapState β :=
  match s.workers[w]? with
  | some st => pStepAt items mapper s w st
  | none => s

/-- The pool start state: `Math.max(1, Math.min(concurrency, items.length))`
workers, all at the top of their loop, `out = new Array(items.length)`. -/
def pInit (items : List α) (K : Nat) : PMapState β :=
  { nextIndex := 0
  , out := List.replicate items.length none
  , workers := List.replicate (max 1 (min K items.length)) WStatus.atLoop }

def pRun (items : List α) (K : Nat) (mapper : α → β) (sched : List Nat) :
    PMapState β :=
  sched.foldl (fun s w => pStep items mapper s w) (pInit items K)

/-- `pMapLimit` with its `items.length === 0` early return. -/
def pMapLimit (items : List α) (K : Nat) (mapper : α → β) (sched : List Nat) :
    PMapState β :=
  if items.length = 0 then { nextIndex := 0, out := [], workers := [] }
  else pRun items K mapper sched

/-- The worker-pool invariant: output size is fixed; the pool size is fixed;
every written cell holds the mapper of its input; running workers hold claimed
in-range indices; every claimed in-range index is either in flight or already
written; a finished worker means every index has been claimed. -/
def PInv (items : List α) (mapper : α → β) (W : Nat) (s : PMapState β) : Prop :=
  s.out.length = items.length ∧
  s.workers.length = W ∧
  (∀ (i : Nat) (a : α), items[i]? = some a →
    s.out[i]? = some none ∨ s.out[i]? = some (some (mapper a))) ∧
  (∀ (w i : Nat), s.workers[w]? = some (WStatus.running i) →
    i < items.length ∧ i < s.nextIndex) ∧
  (∀ i : Nat, i < s.nextIndex → i < items.length →
    (∃ w : Nat, s.workers[w]? = some (WStatus.running i)) ∨ s.out[i]? ≠ some none) ∧
  ((∃ w : Nat, s.workers[w]? = some WStatus.done) → items.length ≤ s.nextIndex)

/-! ### Fetch-level resolver embeddings (C8)

`fetchJson` throws on transport error, timeout (abort) and non-2xx status
(`if (!r.ok) throw`); all three surface to the resolvers as one failure case,
modelled as `Except.error`.  Each resolver wraps its fetches in
`try { ... } catch { return null / [] }`, so its own return type carries no
exception: failures degrade to `none` (or `[]` for search) and are memoised
in the per-resolver caches exactly as the source does. -/

/-- The `/Q\d+/i` match of `extractWikidataQid`: first `Q`/`q` followed by at
least one digit, digits taken maximally, uppercased. -/
def qidScan : List Char → Option String
  | [] => none
  | c :: rest =>
    if c = 'Q' || c = 'q' then
      let digits := rest.takeWhile (fun d => '0' ≤ d && d ≤ '9')
      if digits = [] then qidScan rest
      else some (String.mk ('Q' :: digits))
    else qidScan rest

def extractWikidataQid (raw : String) : Option String :=
  qidScan (jsTrim raw).data

/-- `openLibraryIsbnToWorkKey`: trim, consult the cross-request cache, fetch
`/isbn/{key}.json` and read `works[0].key` (non-string → `null`); any fetch
failure is caught, memoised as `null` and returned as `null`. -/
def openLibraryIsbnToWorkKey
    (fetchIsbn : String → Except String (List (Option String)))
    (cache : List (String × Option String)) (isbn : String) :
    Option String × List (String × Option String) :=
  let key := jsTrim isbn
  if key = "" then (none, cache)
  else if mapHas cache key then ((mapGet cache key).getD none, cache)
  else
    match fetchIsbn key with
    | Except.ok works =>
      let out := works.headD none
      (out, mapSet cache key out)
    | Except.error _ => (none, mapSet cache key none)

/-- One Wikidata search item as `wikidataWorkQidByTitleAuthor` reads it. -/
structure WdItem where
  id : String := ""
  label : String := ""
  description : String := ""
deriving Repr, DecidableEq

def WIKIDATA_LANGS : List String := ["en", "de", "es", "fr"]

/-- The per-language loop inside `wikidataWorkQidByTitleAuthor`'s `try` block:
a fetch failure in any iteration aborts the whole loop exceptionally. -/
def wdLangLoop (fetchWd : String → String → Except String (List WdItem))
    (t authorNeedle authorLast : String) : List String → Except String (Option String)
  | [] => Except.ok none
  | lang :: rest =>
    match fetchWd lang t with
    | Except.error e => Except.error e
    | Except.ok arr =>
      if arr.length = 0 then wdLangLoop fetchWd t authorNeedle authorLast rest
      else
        let best := arr.foldl
          (fun (best : Option (String × Nat)) item =>
            match extractWikidataQid item.id with
            | none => best
            | some id =>
              let label := norm item.label
              let desc := norm item.description
              let blob := label ++ " " ++ desc
              let score : Nat :=
                (if titleTokenKey t ≠ "" &&
                    strIncludes label
                      ((splitListOn (fun c => c = ' ') (titleTokenKey t).data).headD "")
                  then 2 else 0) +
                (if strIncludes desc "novel" || strIncludes desc "book" ||
                    strIncludes desc "roman" then 2 else 0) +
                (if authorNeedle ≠ "" && strIncludes blob authorNeedle then 3 else 0) +
                (if authorLast ≠ "" && strIncludes blob authorLast then 2 else 0)
              match best with
              | none => some (id, score)
              | some b => if b.2 < score then some (id, score) else some b)
          none
        match best with
        | some b =>
          if 3 ≤ b.2 then Except.ok (some b.1)
          else wdLangLoop fetchWd t authorNeedle authorLast rest
        | none => wdLangLoop fetchWd t authorNeedle authorLast rest

/-- `wikidataWorkQidByTitleAuthor`: trim, consult the memo cache (key
`{primaryAuthorKey}|{titleTokenKey || norm(title)}`), run the language loop;
any fetch failure is caught, memoised as `null` and returned as `null`. -/
def wikidataWorkQidByTitleAuthor
    (fetchWd : String → String → Except String (List WdItem))
    (cache : List (String × Option String)) (title authors : String) :
    Option String × List (String × Option String) :=
  let t := jsTrim title
  let a := jsTrim authors
  if t = "" then (none, cache)
  else
    let key := primaryAuthorKey a ++ "|" ++
      (if titleTokenKey t ≠ "" then titleTokenKey t else norm t)
    if mapHas cache key then ((mapGet cache key).getD none, cache)
    else
      let authorNeedle := primaryAuthorKey a
      let authorLast := norm (authorLastName (pickPrimaryAuthor a))
      match wdLangLoop fetchWd t authorNeedle authorLast WIKIDATA_LANGS with
      | Except.ok out => (out, mapSet cache key out)
      | Except.error _ => (none, mapSet cache key none)

structure SearchCacheEntry where
  docs : List OpenLibraryDoc := []
  expiresAt : Int := 0
deriving Repr, DecidableEq

def SEARCH_CACHE_TTL_MS : Int := 10 * 60 * 1000

def SEARCH_CACHE_MAX_ENTRIES : Nat := 120

/-- Lookup in the URL-keyed search cache (the URL is determined by the
`(query, limit)` pair, which the model uses as the key). -/
def pairGet (m : List ((String × ℚ) × SearchCacheEntry)) (k : String × ℚ) :
    Option SearchCacheEntry :=
  (m.find? (fun kv => kv.1 = k)).map (fun kv => kv.2)

/-- `cacheSet`: evict the oldest entry at 120, then insert with a 10-minute
TTL. -/
def cacheSet (m : List ((String × ℚ) × SearchCacheEntry)) (k : String × ℚ)
    (docs : List OpenLibraryDoc) (now : Int) :
    List ((String × ℚ) × SearchCacheEntry) :=
  let m1 := if SEARCH_CACHE_MAX_ENTRIES ≤ m.length then m.drop 1 else m
  m1 ++ [(k, { docs := docs, expiresAt := now + SEARCH_CACHE_TTL_MS })]

/-- `openLibrarySearch`: serve from the cache while unexpired, else fetch;
a fetch failure is caught and degrades to `[]` (uncached). -/
def openLibrarySearch
    (fetchSearch : String → ℚ → Except String (List OpenLibraryDoc))
    (cache : List ((String × ℚ) × SearchCacheEntry)) (now : Int)
    (query : String) (limit : ℚ) :
    List OpenLibraryDoc × List ((String × ℚ) × SearchCacheEntry) :=
  match pairGet cache (query, limit) with
  | some entry =>
    if now < entry.expiresAt then (entry.docs, cache)
    else
      match fetchSearch query limit with
      | Except.ok docs => (docs, cacheSet cache (query, limit) docs now)
      | Except.error _ => ([], cache)
  | none =>
    match fetchSearch query limit with
    | Except.ok docs => (docs, cacheSet cache (query, limit) docs now)
    | Except.error _ => ([], cache)

/-! ### The request handler (C3): parameter parsing, seed profile,
short-circuit, and the full candidate pipeline with oracle-call counting -/

structure HandlerParams where
  limitRaw : Option Int := none
  minRatingRaw : Option Int := none
  seedMode : String := "liked"
  selectedSeedIds : List Nat := []
deriving Repr, DecidableEq

structure HandlerResponse where
  ok : Bool := true
  httpStatus : Nat := 200
  likedCount : Nat := 0
  recommendations : List Recommendation := []
deriving Repr, DecidableEq

/-- `synthesizeDescription` from the pipeline source. -/
def synthesizeDescription (rec : Recommendation) : String :=
  let motifFromReasons :=
    (rec.reasons.filter (fun r => r.label = "Story-Ähnlichkeit")).foldl
      (fun acc r =>
        acc ++ (MOTIF_LABEL_DE.map (fun kv => kv.1)).filter
          (fun k =>
            strIncludes (jsToLower r.detail)
                (jsToLower ((mapGet MOTIF_LABEL_DE k).getD "")) ||
              strIncludes (jsToLower r.detail) (k.replace "_" " ")))
      []
  let motifKey := truthyOpt motifFromReasons.head?
  let motifLabel :=
    match motifKey with
    | some k => truthyOpt (mapGet MOTIF_LABEL_DE k)
    | none => none
  let subjects := (rec.subjects.filter (fun x => !isGenericSubject x)).take 3
  match motifLabel with
  | some label =>
    if 2 ≤ subjects.length then
      "Im Zentrum stehen " ++ String.intercalate ", " subjects ++
        ". Der Ton geht klar in Richtung " ++ jsToLower label ++ "."
    else
      "Die Geschichte setzt vor allem auf " ++ jsToLower label ++
        " und starke Figurenbeziehungen."
  | none =>
    if 0 < subjects.length then
      "Thematisch dreht sich das Buch vor allem um " ++
        String.intercalate ", " subjects ++ "."
    else
      "Eine charaktergetriebene Erzaehlung mit starker Beziehungsebene."

/-- The handler's search-query list: German-tagged then untagged subject and
author queries, with the clamped per-query limits. -/
def handlerQueries (profile : Profile) (limit : Nat) : List (String × ℚ) :=
  let topSubjects := profile.topSubjects.map (fun x => x.subject)
  let topAuthors := profile.topAuthors.map (fun x => x.author)
  let subjectLimit := clamp ((⌈(limit : ℚ)⌉ : ℚ)) 10 40
  let authorLimit := clamp ((⌈(limit : ℚ) * 0.6⌉ : ℚ)) 8 25
  let subjectQueriesDe := topSubjects.map
    (fun s => ("subject:\"" ++ s ++ "\" language:ger", subjectLimit))
  let authorQueriesDe := topAuthors.map
    (fun a => ("author:\"" ++ a ++ "\" language:ger", authorLimit))
  let subjectQueries := topSubjects.map (fun s => ("subject:\"" ++ s ++ "\"", subjectLimit))
  let authorQueries := topAuthors.map (fun a => ("author:\"" ++ a ++ "\"", authorLimit))
  subjectQueriesDe ++ authorQueriesDe ++ subjectQueries ++ authorQueries

/-- The candidate-collection loop over the fetched docs: skip ISBN-less and
title-less docs, score, keep positive scores, split German/other, apply the
German bonus. -/
def scoredOf (profile : Profile) (storyProfile : StoryProfile)
    (docs : List OpenLibraryDoc) : List ScoredItem × List ScoredItem :=
  docs.foldl
    (fun acc doc =>
      match truthyOpt (bestIsbnFromDoc doc) with
      | none => acc
      | some isbn =>
        let title := jsTrim doc.title
        if title = "" then acc
        else
          let sr := scoreCandidate doc profile storyProfile
          if sr.score ≤ 0 then acc
          else
            let wk := workKeyFromDoc doc
            let german := isGermanDoc doc
            let item : ScoredItem :=
              { workKey := wk
              , cand :=
                { recId := "seed:" ++ isbn, workKey := wk, isbn := isbn
                , title := title, authors := authorsFromDoc doc
                , coverUrl := coverFromIsbn isbn
                , description := descriptionFromDoc doc
                , score := sr.score + (if german then GERMAN_SCORE_BONUS else 0)
                , reasons := sr.reasons, subjects := subjectsFromDoc doc } }
            if german then (acc.1 ++ [item], acc.2) else (acc.1, acc.2 ++ [item]))
    ([], [])

/-- Sort both score buckets descending and prefer the German bucket alone when
it already fills the limit. -/
def handlerScored (profile : Profile) (storyProfile : StoryProfile) (limit : Nat)
    (docs : List OpenLibraryDoc) : List ScoredItem :=
  let p := scoredOf profile storyProfile docs
  let g := sortDescBy (fun it : ScoredItem => it.cand.score) p.1
  let o := sortDescBy (fun it : ScoredItem => it.cand.score) p.2
  if limit ≤ g.length then g else g ++ o

/-- The OpenLibrary description pass: one lookup per output row with a falsy
description and a truthy work key. -/
def descPhaseOl (net : Net) (out : List Recommendation) :
    List Recommendation × Nat :=
  out.foldl
    (fun acc r =>
      match truthyOpt r.description, truthyOpt r.workKey with
      | none, some w =>
        (acc.1 ++ [{ r with description :=
            (match truthyOpt (net.olDescription w) with
             | some d2 => some d2
             | none => r.description) }],
          acc.2 + 1)
      | _, _ => (acc.1 ++ [r], acc.2))
    ([], 0)

/-- The Wikidata description pass: one lookup per row still lacking a
description, keyed by its (truthy) `recId`. -/
def descPhaseWd (net : Net) (out : List Recommendation) :
    List Recommendation × Nat :=
  out.foldl
    (fun acc r =>
      if (truthyOpt r.description).isNone && r.recId ≠ "" then
        (acc.1 ++ [{ r with description :=
            (match truthyOpt (net.wdDescriptionByQidKey r.recId) with
             | some d2 => some d2
             | none => r.description) }],
          acc.2 + 1)
      else (acc.1 ++ [r], acc.2))
    ([], 0)

/-- The final description pass: keep a trimmed German description (cut to 700
characters), otherwise synthesise one. -/
def descFinal (out : List Recommendation) : List Recommendation :=
  out.map (fun r =>
    let desc := jsTrim (r.description.getD "")
    if desc = "" || !looksGerman desc then
      { r with description := some (synthesizeDescription r) }
    else
      { r with description := some (String.mk (desc.data.take 700)) })

/-- Everything the handler does after the `likedCount === 0` short-circuit:
owned-key construction, searches, candidate collection, the dedup loop, and
the description passes — with the total oracle-call count. -/
def handlerRest (net : Net) (prefs : PreferenceSignals) (entries : List LibraryEntry)
    (profile : Profile) (storyProfile : StoryProfile) (limit : Nat) :
    HandlerResponse × Nat :=
  let bo := ownedKeysFor net entries
  let queries := handlerQueries profile limit
  let docs := queries.foldl (fun acc q => acc ++ net.search q.1 q.2) []
  let scored := handlerScored profile storyProfile limit docs
  let final := processScored net bo.1 prefs limit scored
  let d1 := descPhaseOl net final.out
  let d2 := descPhaseWd net d1.1
  let out := descFinal d2.1
  ({ ok := true, httpStatus := 200, likedCount := profile.likedCount
   , recommendations := out },
    bo.2 + queries.length + final.calls + d1.2 + d2.2)

/-- The request handler (`src/unnamed/part_004` `handler`), for an
authenticated user with library `entries`: parse `limit`, `minRating`,
`seedMode` (parsed but unused, cf. C4) and `seedEntryIds`; build the profile;
return empty recommendations at once when `likedCount = 0`, else run the
pipeline.  The second component counts oracle (OpenLibrary/Wikidata) calls. -/
def handler (net : Net) (prefs : PreferenceSignals) (params : HandlerParams)
    (entries : List LibraryEntry) : HandlerResponse × Nat :=
  let limit := effectiveLimit params.limitRaw
  let minRating := clamp (((jsParsedOr params.minRatingRaw 4 : Int) : ℚ)) 0 10
  let seedEntries :=
    if params.selectedSeedIds ≠ [] then
      entries.filter (fun e => params.selectedSeedIds.contains e.id)
    else entries
  let profile := computeProfile seedEntries minRating
  let storyProfile := buildStoryProfile seedEntries minRating
  if profile.likedCount = 0 then
    ({ ok := true, httpStatus := 200, likedCount := profile.likedCount
     , recommendations := [] }, 0)
  else handlerRest net prefs entries profile storyProfile limit

/-! ## Theorems -/

theorem length_listSet (l : List α) (n : Nat) (a : α) :
    (listSet l n a).length = l.length := by
  induction l generalizing n with
  | nil => rfl
  | cons x xs ih => cases n with
    | zero => rfl
    | succ m => simp [listSet, ih]

theorem getElem?_listSet_self (l : List α) (n : Nat) (a : α) (h : n < l.length) :
    (listSet l n a)[n]? = some a := by
  induction l generalizing n with
  | nil => simp at h
  | cons x xs ih => cases n with
    | zero => simp [listSet]
    | succ m =>
      simp only [listSet, List.getElem?_cons_succ]
      exact ih m (by simpa using h)

theorem getElem?_listSet_ne (l : List α) (n : Nat) (a : α) (m : Nat) (h : m ≠ n) :
    (listSet l n a)[m]? = l[m]? := by
  induction l generalizing n m with
  | nil => rfl
  | cons x xs ih => cases n with
    | zero => cases m with
      | zero => exact absurd rfl h
      | succ k => simp [listSet]
    | succ k => cases m with
      | zero => simp [listSet]
      | succ j =>
        simp only [listSet, List.getElem?_cons_succ]
        exact ih k j (fun hh => h (by simp [hh]))

theorem mapGet_mapSet (m : List (String × β)) (key : String) (v : β) (q : String) :
    mapGet (mapSet m key v) q = if key = q then some v else mapGet m q := by
  induction m with
  | nil => by_cases h : key = q <;> simp [mapSet, mapGet, h]
  | cons kv rest ih =>
    obtain ⟨k, w⟩ := kv
    by_cases hk : k = key
    · subst hk
      by_cases hq : k = q <;> simp [mapSet, mapGet, hq]
    · simp only [mapSet, if_neg hk, mapGet]
      by_cases hq : k = q
      · subst hq
        rw [if_neg (fun h : key = k => hk h.symm)]
        simp
      · simp [mapGet, hq, ih]

theorem mapGetD_mapAdd (m : List (String × ℚ)) (key : String) (v : ℚ) (q : String) :
    mapGetD (mapAdd m key v) q 0
      = mapGetD m q 0 + (if key = q then v else 0) := by
  unfold mapAdd mapGetD
  rw [mapGet_mapSet]
  by_cases h : key = q
  · subst h; simp
  · simp [h]

theorem canonShape_ne_wkIsbnShape {a b : String} (ha : canonShape a)
    (hb : wkIsbnShape b) : a ≠ b := by
  rintro rfl
  rcases ha with ⟨x, rfl⟩ | ⟨x, rfl⟩ | ⟨x, rfl⟩ <;>
    rcases hb with ⟨y, hy⟩ | ⟨y, hy⟩ <;>
    · have h2 := congrArg (fun s => s.data.take 2) hy
      simp [String.data_append] at h2

theorem resolveCanonicalKey_shape (net : Net) (wk : Option String) (t a : String)
    {c : String} (h : (resolveCanonicalKey net wk t a).1 = some c) : canonShape c := by
  unfold resolveCanonicalKey at h
  dsimp only at h
  split at h
  · simp only [Prod.fst] at h
    injection h with h
    exact Or.inl ⟨_, h.symm⟩
  · split at h
    · simp only [Prod.fst] at h
      injection h with h
      exact Or.inl ⟨_, h.symm⟩
    · split at h
      · simp only [Prod.fst] at h
        injection h with h
        exact Or.inr (Or.inl ⟨_, h.symm⟩)
      · split at h
        · simp only [Prod.fst] at h
          injection h with h
          exact Or.inr (Or.inr ⟨_, h.symm⟩)
        · simp at h

theorem mkStepCtx_r1_isbn (net : Net) (owned : OwnedSets) (prefs : PreferenceSignals)
    (s : LoopState) (item : ScoredItem) :
    (mkStepCtx net owned prefs s item).r1.isbn = item.cand.isbn := by
  unfold mkStepCtx
  dsimp only
  exact (apply_ite Recommendation.isbn _ _ _).trans (ite_self _)

theorem mkStepCtx_r1_title (net : Net) (owned : OwnedSets) (prefs : PreferenceSignals)
    (s : LoopState) (item : ScoredItem) :
    (mkStepCtx net owned prefs s item).r1.title = item.cand.title := by
  unfold mkStepCtx
  dsimp only
  exact (apply_ite Recommendation.title _ _ _).trans (ite_self _)

theorem mkStepCtx_r1_authors (net : Net) (owned : OwnedSets) (prefs : PreferenceSignals)
    (s : LoopState) (item : ScoredItem) :
    (mkStepCtx net owned prefs s item).r1.authors = item.cand.authors := by
  unfold mkStepCtx
  dsimp only
  exact (apply_ite Recommendation.authors _ _ _).trans (ite_self _)

theorem mkStepCtx_authorKey (net : Net) (owned : OwnedSets) (prefs : PreferenceSignals)
    (s : LoopState) (item : ScoredItem) :
    (mkStepCtx net owned prefs s item).authorKey = primaryAuthorKey item.cand.authors := by
  unfold mkStepCtx
  dsimp only

theorem loopCanonStep_shape (net : Net) (needs : Bool) (rwk2 : Option String)
    (t a : String) {c : String} (h : (loopCanonStep net needs rwk2 t a).1 = some c) :
    canonShape c := by
  unfold loopCanonStep at h
  split at h
  · exact resolveCanonicalKey_shape _ _ _ _ h
  · simp at h

theorem loopKey_cases (rck rwk2 : Option String) (r1 : Recommendation)
    (hshape : ∀ x, rck = some x → canonShape x) :
    (∃ x, rck = some x ∧ loopRecId rck rwk2 r1.isbn = x ∧ loopCk rck rwk2 r1 = x ∧
        canonShape x) ∨
    (rck = none ∧ loopRecId rck rwk2 r1.isbn = loopWorkOrIsbnKey rwk2 r1.isbn ∧
      wkIsbnShape (loopRecId rck rwk2 r1.isbn)) := by
  cases rck with
  | some x => exact Or.inl ⟨x, rfl, rfl, rfl, hshape x rfl⟩
  | none =>
    refine Or.inr ⟨rfl, rfl, ?_⟩
    unfold loopRecId loopWorkOrIsbnKey
    cases truthyOpt rwk2 with
    | some w => exact Or.inl ⟨w, rfl⟩
    | none => exact Or.inr ⟨r1.isbn, rfl⟩

set_option maxHeartbeats 4000000 in
theorem mkStepCtx_keyCases (net : Net) (owned : OwnedSets) (prefs : PreferenceSignals)
    (s : LoopState) (item : ScoredItem) :
    (∃ x, (mkStepCtx net owned prefs s item).rck = some x ∧
        (mkStepCtx net owned prefs s item).recId = x ∧
        (mkStepCtx net owned prefs s item).ck = x ∧ canonShape x) ∨
    ((mkStepCtx net owned prefs s item).rck = none ∧
      (mkStepCtx net owned prefs s item).recId =
        (mkStepCtx net owned prefs s item).workOrIsbnKey ∧
      wkIsbnShape (mkStepCtx net owned prefs s item).recId) := by
  exact loopKey_cases _ _ _ (fun x h => loopCanonStep_shape _ _ _ _ _ h)

theorem stepS3_out (s : LoopState) (c : StepCtx) : (stepS3 s c).out = s.out := by
  unfold stepS3
  split <;> rfl

theorem stepS3_seenIsbn (s : LoopState) (c : StepCtx) :
    (stepS3 s c).seenIsbn = s.seenIsbn := by
  unfold stepS3
  split <;> rfl

theorem stepS3_seenWorkOrIsbn (s : LoopState) (c : StepCtx) :
    (stepS3 s c).seenWorkOrIsbn = s.seenWorkOrIsbn ++ [c.workOrIsbnKey] := by
  unfold stepS3
  split <;> rfl

theorem stepS3_seenCanonical (s : LoopState) (c : StepCtx) :
    (stepS3 s c).seenCanonical = s.seenCanonical ++ [c.ck] := by
  unfold stepS3
  split <;> rfl

theorem stepS3_perAuthorCount_pos (s : LoopState) (c : StepCtx) (h : c.authorKey ≠ "") :
    (stepS3 s c).perAuthorCount =
      mapSet s.perAuthorCount c.authorKey (mapGetD s.perAuthorCount c.authorKey 0 + 1) := by
  unfold stepS3
  rw [if_pos h]
  rfl

theorem stepS3_perAuthorCount_neg (s : LoopState) (c : StepCtx) (h : c.authorKey = "") :
    (stepS3 s c).perAuthorCount = s.perAuthorCount := by
  unfold stepS3
  rw [if_neg (fun hx => hx h)]
  rfl

theorem processOne_spec (net : Net) (owned : OwnedSets) (prefs : PreferenceSignals)
    (s : LoopState) (item : ScoredItem) :
    StepGrow s (processOne net owned prefs s item) ∧
      (StepDrop s (processOne net owned prefs s item) ∨
        ∃ r, StepAccept owned s (processOne net owned prefs s item) item r) := by
  have hisbn := mkStepCtx_r1_isbn net owned prefs s item
  have htitle := mkStepCtx_r1_title net owned prefs s item
  have hauthors := mkStepCtx_r1_authors net owned prefs s item
  have hak := mkStepCtx_authorKey net owned prefs s item
  have hkeys := mkStepCtx_keyCases net owned prefs s item
  unfold processOne
  obtain ⟨c, hc⟩ : ∃ c', mkStepCtx net owned prefs s item = c' := ⟨_, rfl⟩
  rw [hc] at hisbn htitle hauthors hak hkeys ⊢
  obtain ⟨t, ht⟩ : ∃ t, processOneWith owned prefs s c = t := ⟨_, rfl⟩
  rw [ht]
  unfold processOneWith at ht
  have hpa : primaryAuthorKey
      ({ c.r1 with workKey := c.rwk2, recId := c.recId } : Recommendation).authors
        = c.authorKey :=
    (congrArg primaryAuthorKey hauthors).trans hak.symm
  by_cases h1 : (match c.rck with
      | some k => owned.ownedCanonicalResolved.contains k
      | none => false) = true
  · rw [if_pos h1] at ht
    subst ht
    exact ⟨⟨fun _ h => h, fun _ h => h, fun _ h => h⟩, Or.inl ⟨rfl, rfl⟩⟩
  rw [if_neg h1] at ht
  by_cases h2 : (c.preferenceKeys.any (fun k => prefs.dislikedKeys.contains k)) = true
  · rw [if_pos h2] at ht
    subst ht
    exact ⟨⟨fun _ h => h, fun _ h => h, fun _ h => h⟩, Or.inl ⟨rfl, rfl⟩⟩
  rw [if_neg h2] at ht
  by_cases h3 : owned.ownedIsbn.contains c.r1.isbn = true
  · rw [if_pos h3] at ht
    subst ht
    exact ⟨⟨fun _ h => h, fun _ h => h, fun _ h => h⟩, Or.inl ⟨rfl, rfl⟩⟩
  rw [if_neg h3] at ht
  by_cases h4 : (stepBase s c).seenIsbn.contains c.r1.isbn = true
  · rw [if_pos h4] at ht
    subst ht
    exact ⟨⟨fun _ h => h, fun _ h => h, fun _ h => h⟩, Or.inl ⟨rfl, rfl⟩⟩
  rw [if_neg h4] at ht
  by_cases h5 : (decide (c.tKey ≠ "") && owned.ownedCanonicalPairs.contains c.strictOwnedKey) = true
  · rw [if_pos h5] at ht
    subst ht
    exact ⟨⟨fun _ h => h, fun _ h => h, fun _ h => h⟩, Or.inl ⟨rfl, rfl⟩⟩
  rw [if_neg h5] at ht
  by_cases h6 : (decide (c.authorKey ≠ "") &&
      ((mapGetD owned.ownedTitlesByAuthor c.authorKey []).any
        (fun ownedTitle => isTitleNearDuplicateSameAuthor c.r1.title ownedTitle))) = true
  · rw [if_pos h6] at ht
    subst ht
    exact ⟨⟨fun _ h => h, fun _ h => h, fun _ h => h⟩, Or.inl ⟨rfl, rfl⟩⟩
  rw [if_neg h6] at ht
  by_cases h7 : (match truthyOpt c.rwk2 with
      | some w => owned.ownedWork.contains w
      | none => false) = true
  · rw [if_pos h7] at ht
    subst ht
    exact ⟨⟨fun _ h => h, fun _ h => h, fun _ h => h⟩, Or.inl ⟨rfl, rfl⟩⟩
  rw [if_neg h7] at ht
  by_cases h8 : (stepBase s c).seenWorkOrIsbn.contains c.workOrIsbnKey = true
  · rw [if_pos h8] at ht
    subst ht
    exact ⟨⟨fun _ h => h, fun _ h => h, fun _ h => h⟩, Or.inl ⟨rfl, rfl⟩⟩
  rw [if_neg h8] at ht
  by_cases h9 : (decide (c.authorKey ≠ "") &&
      ((mapGetD (stepS1 s c).seenTitlesByAuthor c.authorKey []).any
        (fun seenTitle => isTitleNearDuplicateSameAuthor c.r1.title seenTitle))) = true
  · rw [if_pos h9] at ht
    subst ht
    exact ⟨⟨fun _ h => h, fun _ h => List.mem_append_left _ h, fun _ h => h⟩,
      Or.inl ⟨rfl, rfl⟩⟩
  rw [if_neg h9] at ht
  by_cases h10 : (stepS1 s c).seenCanonical.contains c.ck = true
  · rw [if_pos h10] at ht
    subst ht
    exact ⟨⟨fun _ h => h, fun _ h => List.mem_append_left _ h, fun _ h => h⟩,
      Or.inl ⟨rfl, rfl⟩⟩
  rw [if_neg h10] at ht
  by_cases h11 : (decide (c.authorKey ≠ "") &&
      decide (MAX_RECS_PER_PRIMARY_AUTHOR ≤
        mapGetD (stepS2 s c).perAuthorCount c.authorKey 0)) = true
  · rw [if_pos h11] at ht
    subst ht
    exact ⟨⟨fun _ h => h, fun _ h => List.mem_append_left _ h,
      fun _ h => List.mem_append_left _ h⟩, Or.inl ⟨rfl, rfl⟩⟩
  rw [if_neg h11] at ht
  subst ht
  have hrecCases :
      (canonShape c.recId ∧ c.recId ∉ s.seenCanonical ∧
        c.recId ∈ s.seenCanonical ++ [c.ck] ∧
        c.recId ∉ owned.ownedCanonicalResolved) ∨
      (wkIsbnShape c.recId ∧ c.recId ∉ s.seenWorkOrIsbn ∧
        c.recId ∈ s.seenWorkOrIsbn ++ [c.workOrIsbnKey]) := by
    rcases hkeys with ⟨x, hrck, hrecId, hck, hshape⟩ | ⟨hrck, hrecEq, hshape⟩
    · refine Or.inl ⟨hrecId ▸ hshape, ?_, ?_, ?_⟩
      · rw [hrecId, ← hck]
        simpa [stepS1, stepBase] using h10
      · rw [hrecId, ← hck]
        simp
      · rw [hrecId]
        rw [hrck] at h1
        simpa using h1
    · refine Or.inr ⟨hshape, ?_, ?_⟩
      · rw [hrecEq]
        simpa [stepBase] using h8
      · rw [hrecEq]
        simp
  have hgrow : StepGrow s
      ({ out := (stepS3 s c).out ++ [{ c.r1 with workKey := c.rwk2, recId := c.recId }]
       , seenIsbn := (stepS3 s c).seenIsbn ++ [c.r1.isbn]
       , seenWorkOrIsbn := (stepS3 s c).seenWorkOrIsbn
       , seenCanonical := (stepS3 s c).seenCanonical
       , seenTitlesByAuthor := (stepS3 s c).seenTitlesByAuthor
       , perAuthorCount := (stepS3 s c).perAuthorCount
       , workByTitleCache := (stepS3 s c).workByTitleCache
       , calls := (stepS3 s c).calls } : LoopState) := by
    refine ⟨fun x hx => ?_, fun x hx => ?_, fun x hx => ?_⟩
    · show x ∈ (stepS3 s c).seenIsbn ++ [c.r1.isbn]
      rw [stepS3_seenIsbn]
      exact List.mem_append_left _ hx
    · show x ∈ (stepS3 s c).seenWorkOrIsbn
      rw [stepS3_seenWorkOrIsbn]
      exact List.mem_append_left _ hx
    · show x ∈ (stepS3 s c).seenCanonical
      rw [stepS3_seenCanonical]
      exact List.mem_append_left _ hx
  refine ⟨hgrow, Or.inr ⟨{ c.r1 with workKey := c.rwk2, recId := c.recId },
    ?_, hisbn, htitle, hauthors, by simpa using h3, by simpa [stepBase] using h4,
    ?_, ?_, ?_, ?_, ?_⟩⟩
  · show (stepS3 s c).out ++ _ = _
    rw [stepS3_out]
  · show (stepS3 s c).seenIsbn ++ _ = _
    rw [stepS3_seenIsbn]
  · intro hne t ht hx
    rw [hpa] at hne ht
    have : ((mapGetD owned.ownedTitlesByAuthor c.authorKey []).any
        (fun ownedTitle => isTitleNearDuplicateSameAuthor c.r1.title ownedTitle)) = true :=
      List.any_eq_true.mpr ⟨t, ht, hx⟩
    exact h6 (by simp [hne, this])
  · rcases hrecCases with ⟨hsh, hnot, hmem, hown⟩ | ⟨hsh, hnot, hmem⟩
    · refine Or.inl ⟨hsh, hnot, ?_, hown⟩
      show _ ∈ (stepS3 s c).seenCanonical
      rw [stepS3_seenCanonical]
      exact hmem
    · refine Or.inr ⟨hsh, hnot, ?_⟩
      show _ ∈ (stepS3 s c).seenWorkOrIsbn
      rw [stepS3_seenWorkOrIsbn]
      exact hmem
  · intro hne
    rw [hpa] at hne
    rw [hpa]
    constructor
    · by_contra hle
      have hle' : MAX_RECS_PER_PRIMARY_AUTHOR ≤ mapGetD s.perAuthorCount c.authorKey 0 :=
        Nat.le_of_not_lt hle
      exact h11 (by simp [hne, stepS2, stepS1, stepBase, hle'])
    · show (stepS3 s c).perAuthorCount = _
      exact stepS3_perAuthorCount_pos s c hne
  · intro h0
    rw [hpa] at h0
    show (stepS3 s c).perAuthorCount = _
    exact stepS3_perAuthorCount_neg s c h0

/-! ### The normalizer ignores surrounding whitespace -/

theorem tokStep_nonalnum (c : Char) (h : ¬ isLowerAlnum c) (st : List Char × List (List Char)) :
    tokStep c st = ([], tokFinish st) := by
  simp [tokStep, tokFinish, h]

theorem foldr_tokStep_nonalnum_init (post : List Char)
    (h : ∀ c ∈ post, ¬ isLowerAlnum c) :
    post.foldr tokStep ([], []) = ([], []) := by
  induction post with
  | nil => rfl
  | cons c rest ih =>
    have hr := ih (fun x hx => h x (List.mem_cons_of_mem _ hx))
    simp only [List.foldr_cons, hr]
    rw [tokStep_nonalnum c (h c (List.mem_cons_self _ _))]
    rfl

theorem alnumTokens_append_right (l post : List Char)
    (h : ∀ c ∈ post, ¬ isLowerAlnum c) :
    alnumTokens (l ++ post) = alnumTokens l := by
  unfold alnumTokens
  rw [List.foldr_append, foldr_tokStep_nonalnum_init post h]

theorem alnumTokens_prefix_drop (pre l : List Char)
    (h : ∀ c ∈ pre, ¬ isLowerAlnum c) :
    alnumTokens (pre ++ l) = alnumTokens l := by
  induction pre with
  | nil => rfl
  | cons c rest ih =>
    have hrec := ih (fun x hx => h x (List.mem_cons_of_mem _ hx))
    unfold alnumTokens at *
    simp only [List.cons_append, List.foldr_cons]
    rw [tokStep_nonalnum c (h c (List.mem_cons_self _ _))]
    rw [show tokFinish ([], tokFinish ((rest ++ l).foldr tokStep ([], []))) =
        tokFinish ((rest ++ l).foldr tokStep ([], [])) from rfl]
    exact hrec

theorem foldChar_ws {c : Char} (h : isJsWs c = true) : foldChar c = c := by
  simp only [isJsWs, Bool.or_eq_true, decide_eq_true_eq] at h
  rcases h with (((((rfl | rfl) | rfl) | rfl) | rfl) | rfl) <;> decide

theorem not_isLowerAlnum_ws {c : Char} (h : isJsWs c = true) : ¬ isLowerAlnum c := by
  simp only [isJsWs, Bool.or_eq_true, decide_eq_true_eq] at h
  rcases h with (((((rfl | rfl) | rfl) | rfl) | rfl) | rfl) <;> decide

theorem cleanChars_append (a b : List Char) :
    cleanChars (a ++ b) = cleanChars a ++ cleanChars b := by
  simp [cleanChars]

theorem cleanChars_ws_nonalnum (l : List Char) (h : ∀ c ∈ l, isJsWs c = true) :
    ∀ c ∈ cleanChars l, ¬ isLowerAlnum c := by
  intro c hc
  unfold cleanChars at hc
  rw [List.mem_filter] at hc
  obtain ⟨hmem, _⟩ := hc
  rw [List.mem_map] at hmem
  obtain ⟨d, hd, rfl⟩ := hmem
  have hws := h d hd
  rw [foldChar_ws hws]
  exact not_isLowerAlnum_ws hws

theorem alnumTokens_cleanChars_trim (l : List Char) :
    alnumTokens (cleanChars (((l.dropWhile isJsWs).reverse.dropWhile isJsWs).reverse))
      = alnumTokens (cleanChars l) := by
  have hpre : ∀ c ∈ l.takeWhile isJsWs, isJsWs c = true :=
    fun c hc => List.mem_takeWhile_imp hc
  have hdecomp1 : l = l.takeWhile isJsWs ++ l.dropWhile isJsWs :=
    (List.takeWhile_append_dropWhile _ _).symm
  have hpost : ∀ c ∈ ((l.dropWhile isJsWs).reverse.takeWhile isJsWs).reverse,
      isJsWs c = true := by
    intro c hc
    rw [List.mem_reverse] at hc
    exact List.mem_takeWhile_imp hc
  have hdecomp2 : l.dropWhile isJsWs =
      ((l.dropWhile isJsWs).reverse.dropWhile isJsWs).reverse ++
        ((l.dropWhile isJsWs).reverse.takeWhile isJsWs).reverse := by
    rw [← List.reverse_append, List.takeWhile_append_dropWhile, List.reverse_reverse]
  calc alnumTokens (cleanChars (((l.dropWhile isJsWs).reverse.dropWhile isJsWs).reverse))
      = alnumTokens (cleanChars (((l.dropWhile isJsWs).reverse.dropWhile isJsWs).reverse) ++
          cleanChars (((l.dropWhile isJsWs).reverse.takeWhile isJsWs).reverse)) := by
        rw [alnumTokens_append_right _ _ (cleanChars_ws_nonalnum _ hpost)]
    _ = alnumTokens (cleanChars (l.dropWhile isJsWs)) := by
        rw [← cleanChars_append, ← hdecomp2]
    _ = alnumTokens (cleanChars (l.takeWhile isJsWs) ++ cleanChars (l.dropWhile isJsWs)) := by
        rw [alnumTokens_prefix_drop _ _ (cleanChars_ws_nonalnum _ hpre)]
    _ = alnumTokens (cleanChars l) := by
        rw [← cleanChars_append, ← hdecomp1]

theorem normTokens_jsTrim (s : String) : normTokens (jsTrim s) = normTokens s := by
  unfold normTokens jsTrim
  exact congrArg (List.map String.mk) (alnumTokens_cleanChars_trim s.data)

theorem titleTokens_jsTrim (t : String) : titleTokens (jsTrim t) = titleTokens t := by
  unfold titleTokens
  rw [normTokens_jsTrim]

theorem titleTokenKey_jsTrim (t : String) :
    titleTokenKey (jsTrim t) = titleTokenKey t := by
  unfold titleTokenKey
  rw [titleTokens_jsTrim]

theorem isTitleNearDuplicateSameAuthor_jsTrim (a b : String) :
    isTitleNearDuplicateSameAuthor a (jsTrim b) = isTitleNearDuplicateSameAuthor a b := by
  unfold isTitleNearDuplicateSameAuthor
  rw [titleTokenKey_jsTrim]

theorem nearDup_titleTokenKey_ne {a b : String}
    (h : isTitleNearDuplicateSameAuthor a b = true) : titleTokenKey b ≠ "" := by
  intro hb
  unfold isTitleNearDuplicateSameAuthor at h
  rw [hb] at h
  simp at h

/-! ### Membership in the owned-titles map -/

theorem ownedTitlesAdd_mono (m : List (String × List String)) (e : LibraryEntry)
    (a : String) : ∀ x ∈ mapGetD m a [], x ∈ mapGetD (ownedTitlesAdd m e) a [] := by
  intro x hx
  unfold ownedTitlesAdd
  dsimp only
  split
  · exact hx
  split
  · exact hx
  unfold mapGetD
  rw [mapGet_mapSet]
  by_cases hk : primaryAuthorKey e.authors = a
  · rw [if_pos hk]
    exact List.mem_append_left _ (by simpa [mapGetD, hk] using hx)
  · rw [if_neg hk]
    exact hx

theorem ownedTitlesAdd_self (m : List (String × List String)) (e : LibraryEntry)
    (ht : titleTokenKey (jsTrim e.title) ≠ "") (ha : primaryAuthorKey e.authors ≠ "") :
    jsTrim e.title ∈ mapGetD (ownedTitlesAdd m e) (primaryAuthorKey e.authors) [] := by
  unfold ownedTitlesAdd
  dsimp only
  rw [if_neg ht, if_neg ha]
  unfold mapGetD
  rw [mapGet_mapSet, if_pos rfl]
  exact List.mem_append_right _ (by simp)

theorem ownedTitles_fold_mono (entries : List LibraryEntry)
    (m : List (String × List String)) (a : String) :
    ∀ x ∈ mapGetD m a [], x ∈ mapGetD (entries.foldl ownedTitlesAdd m) a [] := by
  induction entries generalizing m with
  | nil => exact fun x hx => hx
  | cons f rest ih =>
    intro x hx
    exact ih (ownedTitlesAdd m f) x (ownedTitlesAdd_mono m f a x hx)

theorem mem_ownedTitlesByPrimaryAuthorOf (entries : List LibraryEntry)
    (e : LibraryEntry) (he : e ∈ entries)
    (ht : titleTokenKey (jsTrim e.title) ≠ "") (ha : primaryAuthorKey e.authors ≠ "") :
    jsTrim e.title ∈
      mapGetD (ownedTitlesByPrimaryAuthorOf entries) (primaryAuthorKey e.authors) [] := by
  unfold ownedTitlesByPrimaryAuthorOf
  suffices hgen : ∀ (l : List LibraryEntry) (m : List (String × List String)), e ∈ l →
      jsTrim e.title ∈ mapGetD (l.foldl ownedTitlesAdd m) (primaryAuthorKey e.authors) []
    from hgen entries [] he
  intro l
  induction l with
  | nil => exact fun m hm => absurd hm (List.not_mem_nil _)
  | cons f rest ih =>
    intro m hm
    rcases List.mem_cons.mp hm with hef | he'
    · cases hef
      rw [List.foldl_cons]
      exact ownedTitles_fold_mono rest (ownedTitlesAdd m e) _ _
        (ownedTitlesAdd_self m e ht ha)
    · exact ih (ownedTitlesAdd m f) he'

/-! ### Loop invariants -/

theorem mapGetD_mapSet (m : List (String × β)) (k : String) (v : β) (q : String) (d : β) :
    mapGetD (mapSet m k v) q d = if k = q then v else mapGetD m q d := by
  unfold mapGetD
  rw [mapGet_mapSet]
  split <;> rfl

theorem truthyOpt_eq_some {o : Option String} {c : String} (h : truthyOpt o = some c) :
    o = some c := by
  cases o with
  | none => simp [truthyOpt] at h
  | some x =>
    by_cases hx : x = ""
    · rw [show truthyOpt (some x) = none by simp [truthyOpt, hx]] at h
      exact absurd h (by simp)
    · rw [show truthyOpt (some x) = some x by simp [truthyOpt, hx]] at h
      exact h

theorem processScored_inv (P : LoopState → Prop) (net : Net) (owned : OwnedSets)
    (prefs : PreferenceSignals) (limit : Nat) (scored : List ScoredItem)
    (hstep : ∀ s item, item ∈ scored → ¬ (limit ≤ s.out.length) → P s →
      P (processOne net owned prefs s item))
    (hinit : P {}) : P (processScored net owned prefs limit scored) := by
  unfold processScored
  suffices hgen : ∀ (l : List ScoredItem) (s : LoopState), (∀ it ∈ l, it ∈ scored) → P s →
      P (l.foldl (fun s item => if limit ≤ s.out.length then s
          else processOne net owned prefs s item) s) from
    hgen scored {} (fun _ h => h) hinit
  intro l
  induction l with
  | nil => exact fun s _ hP => hP
  | cons it rest ih =>
    intro s hsub hP
    rw [List.foldl_cons]
    refine ih _ (fun x hx => hsub x (List.mem_cons_of_mem _ hx)) ?_
    by_cases hlim : limit ≤ s.out.length
    · rw [if_pos hlim]
      exact hP
    · rw [if_neg hlim]
      exact hstep s it (hsub it (List.mem_cons_self _ _)) hlim hP

theorem ownedCanonStep_shape (net : Net) (acc : List String × Nat) (e : LibraryEntry)
    (hacc : ∀ c ∈ acc.1, canonShape c) :
    ∀ c ∈ (ownedCanonStep net acc e).1, canonShape c := by
  intro c hc
  unfold ownedCanonStep at hc
  dsimp only at hc
  split at hc
  next ck heq =>
    rcases List.mem_append.mp hc with hc' | hc'
    · exact hacc c hc'
    · rw [List.mem_singleton.mp hc']
      exact resolveCanonicalKey_shape _ _ _ _ (truthyOpt_eq_some heq)
  next heq => exact hacc c hc

theorem ownedCanonicalResolvedKeys_shape (net : Net) (entries : List LibraryEntry) :
    ∀ c ∈ (ownedCanonicalResolvedKeys net entries).1, canonShape c := by
  unfold ownedCanonicalResolvedKeys
  suffices hgen : ∀ (l : List LibraryEntry) (acc : List String × Nat),
      (∀ c ∈ acc.1, canonShape c) → ∀ c ∈ (l.foldl (ownedCanonStep net) acc).1, canonShape c
    from hgen entries ([], 0) (by simp)
  intro l
  induction l with
  | nil => exact fun acc h => h
  | cons e rest ih =>
    intro acc hacc
    rw [List.foldl_cons]
    exact ih _ (ownedCanonStep_shape net acc e hacc)

theorem C1Inv_step (net : Net) (owned : OwnedSets) (prefs : PreferenceSignals)
    (s : LoopState) (item : ScoredItem) (h : C1Inv owned s) :
    C1Inv owned (processOne net owned prefs s item) := by
  obtain ⟨⟨hg1, hg2, hg3⟩, hcase⟩ := processOne_spec net owned prefs s item
  rcases hcase with ⟨hout, _⟩ | ⟨r, hacc⟩
  · refine ⟨?_, ?_⟩
    · intro r hr
      rw [hout] at hr
      rcases h.1 r hr with ⟨hs1, hm, ho⟩ | ⟨hs1, hm⟩
      · exact Or.inl ⟨hs1, hg3 _ hm, ho⟩
      · exact Or.inr ⟨hs1, hg2 _ hm⟩
    · rw [hout]
      exact h.2
  · obtain ⟨hout, _, _, _, _, _, _, _, hrc, _, _⟩ := hacc
    refine ⟨?_, ?_⟩
    · intro r' hr'
      rw [hout] at hr'
      rcases List.mem_append.mp hr' with hr' | hr'
      · rcases h.1 r' hr' with ⟨hs1, hm, ho⟩ | ⟨hs1, hm⟩
        · exact Or.inl ⟨hs1, hg3 _ hm, ho⟩
        · exact Or.inr ⟨hs1, hg2 _ hm⟩
      · rw [List.mem_singleton.mp hr']
        rcases hrc with ⟨hsh, _, hmem, hown⟩ | ⟨hsh, _, hmem⟩
        · exact Or.inl ⟨hsh, hmem, hown⟩
        · exact Or.inr ⟨hsh, hmem⟩
    · rw [hout, List.map_append, List.nodup_append]
      refine ⟨h.2, List.nodup_singleton _, ?_⟩
      intro a ha hb
      obtain ⟨r'', hr'', hrid⟩ := List.mem_map.mp ha
      have hbb : a = r.recId := by simpa using hb
      have heq : r''.recId = r.recId := hrid.trans hbb
      rcases h.1 r'' hr'' with ⟨hs2, hm2, _⟩ | ⟨hs2, hm2⟩ <;>
        rcases hrc with ⟨hsh1, hnot1, _, _⟩ | ⟨hsh1, hnot1, _⟩
      · exact hnot1 (heq ▸ hm2)
      · exact canonShape_ne_wkIsbnShape hs2 hsh1 heq
      · exact canonShape_ne_wkIsbnShape hsh1 hs2 heq.symm
      · exact hnot1 (heq ▸ hm2)

theorem C2Inv_step (net : Net) (owned : OwnedSets) (prefs : PreferenceSignals)
    (s : LoopState) (item : ScoredItem)
    (hitem : item.cand.isbn ≠ "" ∧ jsTrim item.cand.isbn = item.cand.isbn)
    (h : C2Inv owned s) : C2Inv owned (processOne net owned prefs s item) := by
  obtain ⟨_, hcase⟩ := processOne_spec net owned prefs s item
  rcases hcase with ⟨hout, _⟩ | ⟨r, hacc⟩
  · intro r hr
    rw [hout] at hr
    exact h r hr
  · obtain ⟨hout, hisbn, htitle, hauth, hio, _, _, hnd, _, _, _⟩ := hacc
    intro r' hr'
    rw [hout] at hr'
    rcases List.mem_append.mp hr' with hr' | hr'
    · exact h r' hr'
    · rw [List.mem_singleton.mp hr']
      exact ⟨⟨hio, by rw [hisbn]; exact hitem.1, by rw [hisbn]; exact hitem.2⟩, hnd⟩

theorem C6Inv_step (net : Net) (owned : OwnedSets) (prefs : PreferenceSignals)
    (s : LoopState) (item : ScoredItem) (h : C6Inv s) :
    C6Inv (processOne net owned prefs s item) := by
  obtain ⟨_, hcase⟩ := processOne_spec net owned prefs s item
  rcases hcase with ⟨hout, hper⟩ | ⟨r, hacc⟩
  · intro a ha
    rw [hout, hper]
    exact h a ha
  · obtain ⟨hout, _, _, _, _, _, _, _, _, hpos, hempty⟩ := hacc
    intro a ha
    obtain ⟨hcnt, hle⟩ := h a ha
    by_cases hr0 : primaryAuthorKey r.authors = ""
    · have hra : ¬ (primaryAuthorKey r.authors = a) := by
        rw [hr0]
        exact fun hx => ha hx.symm
      rw [hout, hempty hr0, List.filter_append]
      refine ⟨?_, hle⟩
      have hsing : List.filter (fun x => decide (primaryAuthorKey x.authors = a)) [r] = [] := by
        simp [hra]
      rw [hsing, List.append_nil]
      exact hcnt
    · obtain ⟨hlt, hset⟩ := hpos hr0
      rw [hout, hset, List.filter_append, mapGetD_mapSet]
      by_cases hak : primaryAuthorKey r.authors = a
      · rw [hak] at hlt
        simp only [if_pos hak]
        rw [hak]
        have hsing : List.filter (fun x => decide (primaryAuthorKey x.authors = a)) [r] = [r] := by
          simp [hak]
        rw [hsing, List.length_append, List.length_singleton, hcnt]
        exact ⟨rfl, hlt⟩
      · simp only [if_neg hak]
        have hsing : List.filter (fun x => decide (primaryAuthorKey x.authors = a)) [r] = [] := by
          simp [hak]
        rw [hsing, List.append_nil]
        exact ⟨hcnt, hle⟩

/-! ### Membership helpers for owned sets -/

theorem mem_dedupKeepFirst (a : String) (l : List String) :
    a ∈ dedupKeepFirst l ↔ a ∈ l := by
  induction l with
  | nil => simp [dedupKeepFirst]
  | cons x rest ih =>
    simp only [dedupKeepFirst, List.mem_cons, List.mem_filter, ih]
    by_cases hax : a = x
    · simp [hax]
    · simp [hax]

theorem mem_ownedIsbnOf (entries : List LibraryEntry) (e : LibraryEntry)
    (he : e ∈ entries) (hne : jsTrim e.isbn ≠ "") :
    jsTrim e.isbn ∈ ownedIsbnOf entries := by
  unfold ownedIsbnOf
  rw [mem_dedupKeepFirst, List.mem_filter]
  exact ⟨List.mem_map.mpr ⟨e, he, rfl⟩, by simpa using hne⟩

theorem ownedKeysFor_ownedIsbn (net : Net) (entries : List LibraryEntry) :
    (ownedKeysFor net entries).1.ownedIsbn = ownedIsbnOf entries := rfl

theorem ownedKeysFor_ownedTitles (net : Net) (entries : List LibraryEntry) :
    (ownedKeysFor net entries).1.ownedTitlesByAuthor =
      ownedTitlesByPrimaryAuthorOf entries := rfl

theorem ownedKeysFor_ownedCanonicalResolved (net : Net) (entries : List LibraryEntry) :
    (ownedKeysFor net entries).1.ownedCanonicalResolved =
      (ownedCanonicalResolvedKeys net entries).1 := rfl

theorem processScored_length_le (net : Net) (owned : OwnedSets)
    (prefs : PreferenceSignals) (limit : Nat) (scored : List ScoredItem) :
    (processScored net owned prefs limit scored).out.length ≤ limit := by
  refine processScored_inv (fun s => s.out.length ≤ limit) net owned prefs limit scored
    ?_ (Nat.zero_le _)
  intro s item _ hlim hP
  obtain ⟨_, hcase⟩ := processOne_spec net owned prefs s item
  rcases hcase with ⟨hout, _⟩ | ⟨r, hacc⟩
  · rw [hout]
    exact hP
  · rw [hacc.1, List.length_append, List.length_singleton]
    omega

/-! ### Claim theorems: identity dedup, owned exclusion, limits, author cap -/

/-- C1: in the candidate loop's final output, no two recommendations share a
dedup identity key (in particular no two share a canonical key, since a
recommendation's canonical key, when it has one, *is* its `recId`), and no
recommendation's key equals a canonical key resolved for any entry of the
caller's library. -/
theorem C1_canonical_unique_and_owned_excluded (net : Net) (entries : List LibraryEntry)
    (prefs : PreferenceSignals) (limit : Nat) (scored : List ScoredItem) :
    (((processScored net (ownedKeysFor net entries).1 prefs limit scored).out.map
        (fun r => r.recId)).Nodup) ∧
      ∀ r ∈ (processScored net (ownedKeysFor net entries).1 prefs limit scored).out,
        r.recId ∉ (ownedCanonicalResolvedKeys net entries).1 := by
  have hinv : C1Inv (ownedKeysFor net entries).1
      (processScored net (ownedKeysFor net entries).1 prefs limit scored) := by
    refine processScored_inv _ net _ prefs limit scored
      (fun s item _ _ h => C1Inv_step net _ prefs s item h) ?_
    exact ⟨fun r hr => absurd hr (List.not_mem_nil _), List.nodup_nil⟩
  refine ⟨hinv.2, ?_⟩
  intro r hr hmem
  rcases hinv.1 r hr with ⟨hsh, _, hown⟩ | ⟨hsh, _⟩
  · exact hown (by rw [ownedKeysFor_ownedCanonicalResolved]; exact hmem)
  · exact canonShape_ne_wkIsbnShape
      (ownedCanonicalResolvedKeys_shape net entries r.recId hmem) hsh rfl

theorem C1_witness :
    (((processScored nullNet (ownedKeysFor nullNet ceC2Entries).1 {} 15 ceC6Scored).out.map
        (fun r => r.recId)).Nodup) ∧
      ∀ r ∈ (processScored nullNet (ownedKeysFor nullNet ceC2Entries).1 {} 15
          ceC6Scored).out,
        r.recId ∉ (ownedCanonicalResolvedKeys nullNet ceC2Entries).1 :=
  C1_canonical_unique_and_owned_excluded nullNet ceC2Entries {} 15 ceC6Scored

/-- C2 (amended): if every scored candidate carries a nonempty, trimmed ISBN
(as candidates built from search documents do), then no returned
recommendation's ISBN equals a library entry's ISBN, and — *restricted to a
nonempty normalised primary-author key* — no returned recommendation's title
is a near-duplicate of an owned title by the same primary author.  The
original claim without the nonempty-key restriction is refuted by
`C2_counterexample`: the source only performs the near-duplicate check when
the candidate's author key is truthy. -/
theorem C2_no_owned_isbn_or_near_duplicate (net : Net) (entries : List LibraryEntry)
    (prefs : PreferenceSignals) (limit : Nat) (scored : List ScoredItem)
    (hscored : ∀ it ∈ scored, it.cand.isbn ≠ "" ∧ jsTrim it.cand.isbn = it.cand.isbn) :
    ∀ r ∈ (processScored net (ownedKeysFor net entries).1 prefs limit scored).out,
      ∀ e ∈ entries,
        r.isbn ≠ e.isbn ∧
        (primaryAuthorKey r.authors = primaryAuthorKey e.authors →
          primaryAuthorKey r.authors ≠ "" →
          ¬ isTitleNearDuplicateSameAuthor r.title e.title = true) := by
  have hinv : C2Inv (ownedKeysFor net entries).1
      (processScored net (ownedKeysFor net entries).1 prefs limit scored) := by
    refine processScored_inv _ net _ prefs limit scored ?_ ?_
    · intro s item hmem _ hP
      exact C2Inv_step net _ prefs s item (hscored item hmem) hP
    · intro r hr
      exact absurd hr (List.not_mem_nil _)
  intro r hr e he
  obtain ⟨⟨hnotowned, hrne, hrtrim⟩, hnd⟩ := hinv r hr
  constructor
  · intro heq
    rw [ownedKeysFor_ownedIsbn] at hnotowned
    apply hnotowned
    rw [heq] at hrtrim
    have h2 : jsTrim e.isbn ≠ "" := by
      rw [hrtrim, ← heq]
      exact hrne
    have h3 := mem_ownedIsbnOf entries e he h2
    rw [hrtrim] at h3
    rw [heq]
    exact h3
  · intro hak hane hdup
    have htb : titleTokenKey (jsTrim e.title) ≠ "" := by
      rw [titleTokenKey_jsTrim]
      exact nearDup_titleTokenKey_ne hdup
    have hea : primaryAuthorKey e.authors ≠ "" := by
      rw [← hak]
      exact hane
    have hmem := mem_ownedTitlesByPrimaryAuthorOf entries e he htb hea
    have hno := hnd hane (jsTrim e.title)
      (by rw [ownedKeysFor_ownedTitles, hak]; exact hmem)
    rw [isTitleNearDuplicateSameAuthor_jsTrim] at hno
    exact hno hdup

theorem C2_witness :
    (∀ it ∈ ceC6Scored, it.cand.isbn ≠ "" ∧ jsTrim it.cand.isbn = it.cand.isbn) ∧
      ∀ r ∈ (processScored nullNet (ownedKeysFor nullNet ceC2Entries).1 {} 15
          ceC6Scored).out,
        ∀ e ∈ ceC2Entries,
          r.isbn ≠ e.isbn ∧
          (primaryAuthorKey r.authors = primaryAuthorKey e.authors →
            primaryAuthorKey r.authors ≠ "" →
            ¬ isTitleNearDuplicateSameAuthor r.title e.title = true) :=
  ⟨by decide,
    C2_no_owned_isbn_or_near_duplicate nullNet ceC2Entries {} 15 ceC6Scored (by decide)⟩

/-- C2, original reading refuted: with an owned entry and a candidate that
share the *empty* normalised primary-author key, a near-duplicate title
(token-key containment) is still returned, because the source skips the
near-duplicate check whenever the candidate's author key is falsy. -/
theorem C2_counterexample :
    ∃ r ∈ (processScored nullNet (ownedKeysFor nullNet ceC2Entries).1 {} 15
        ceC2Scored).out,
      ∃ e ∈ ceC2Entries,
        primaryAuthorKey r.authors = primaryAuthorKey e.authors ∧
        isTitleNearDuplicateSameAuthor r.title e.title = true := by
  decide

/-- C5: the effective result limit the handler derives from the request is
always in the range 10–50 (it is 15 or 20), and the candidate loop stops at
the limit, so the output never exceeds it. -/
theorem C5_limit_range_and_result_cap (requestedRaw : Option Int) (net : Net)
    (owned : OwnedSets) (prefs : PreferenceSignals) (scored : List ScoredItem) :
    10 ≤ effectiveLimit requestedRaw ∧ effectiveLimit requestedRaw ≤ 50 ∧
      (processScored net owned prefs (effectiveLimit requestedRaw) scored).out.length ≤
        effectiveLimit requestedRaw := by
  have hcases : effectiveLimit requestedRaw = 20 ∨ effectiveLimit requestedRaw = 15 := by
    by_cases h : 20 ≤ jsParsedOr requestedRaw 15
    · exact Or.inl (by simp [effectiveLimit, h])
    · exact Or.inr (by simp [effectiveLimit, h])
  refine ⟨?_, ?_, processScored_length_le net owned prefs _ scored⟩ <;>
    rcases hcases with h | h <;> rw [h] <;> norm_num

/-- C6 (amended): for every author whose normalised primary-author key is
*nonempty*, the output contains at most `MAX_RECS_PER_PRIMARY_AUTHOR = 3`
recommendations with that key.  The original unrestricted claim is refuted by
`C6_counterexample`: candidates whose author field normalises to the empty
key bypass the per-author counter entirely. -/
theorem C6_per_author_cap_nonempty_key (net : Net) (owned : OwnedSets)
    (prefs : PreferenceSignals) (limit : Nat) (scored : List ScoredItem)
    (a : String) (ha : a ≠ "") :
    ((processScored net owned prefs limit scored).out.filter
        (fun r => decide (primaryAuthorKey r.authors = a))).length ≤
      MAX_RECS_PER_PRIMARY_AUTHOR := by
  have hinv : C6Inv (processScored net owned prefs limit scored) := by
    refine processScored_inv C6Inv net owned prefs limit scored
      (fun s item _ _ h => C6Inv_step net owned prefs s item h) ?_
    intro a' ha'
    exact ⟨rfl, Nat.zero_le _⟩
  obtain ⟨hcnt, hle⟩ := hinv a ha
  rw [hcnt]
  exact hle

theorem C6_witness :
    ("rowling joanne" : String) ≠ "" ∧
      ((processScored nullNet {} {} 15 ceC6Scored).out.filter
          (fun r => decide (primaryAuthorKey r.authors = "rowling joanne"))).length ≤
        MAX_RECS_PER_PRIMARY_AUTHOR :=
  ⟨by decide, C6_per_author_cap_nonempty_key nullNet {} {} 15 ceC6Scored
    "rowling joanne" (by decide)⟩

/-- C6, original reading refuted: four accepted recommendations all normalise
to the empty primary-author key, exceeding the cap of 3, because the counter
is only consulted when the author key is truthy. -/
theorem C6_counterexample :
    MAX_RECS_PER_PRIMARY_AUTHOR <
      ((processScored nullNet {} {} 15 ceC6Scored).out.filter
          (fun r => decide (primaryAuthorKey r.authors = ""))).length := by
  decide

/-! ### Score bounds (C10 support) -/

theorem foldl_preserve_mem (P : β → Prop) (f : β → α → β) :
    ∀ (l : List α) (b : β), (∀ b a, a ∈ l → P b → P (f b a)) → P b → P (l.foldl f b)
  | [], _, _, hb => hb
  | x :: rest, b, hstep, hb =>
    foldl_preserve_mem P f rest (f b x)
      (fun b a ha hP => hstep b a (List.mem_cons_of_mem _ ha) hP)
      (hstep b x (List.mem_cons_self _ _) hb)

theorem mapGet_nonneg (m : List (String × ℚ)) (hm : ∀ kv ∈ m, 0 ≤ kv.2)
    (k : String) (w : ℚ) (h : mapGet m k = some w) : 0 ≤ w := by
  induction m with
  | nil => simp [mapGet] at h
  | cons kv rest ih =>
    obtain ⟨k0, v0⟩ := kv
    unfold mapGet at h
    by_cases hk : k0 = k
    · rw [if_pos hk] at h
      injection h with h2
      subst h2
      exact hm (k0, v0) (List.mem_cons_self _ _)
    · rw [if_neg hk] at h
      exact ih (fun kv hkv => hm kv (List.mem_cons_of_mem _ hkv)) h

theorem mapGetD_nonneg (m : List (String × ℚ)) (hm : ∀ kv ∈ m, 0 ≤ kv.2)
    (k : String) : 0 ≤ mapGetD m k 0 := by
  unfold mapGetD
  cases hg : mapGet m k with
  | none => simp
  | some w => simpa using mapGet_nonneg m hm k w hg

theorem mapSet_values_nonneg (m : List (String × ℚ)) (k : String) (v : ℚ)
    (hm : ∀ kv ∈ m, 0 ≤ kv.2) (hv : 0 ≤ v) : ∀ kv ∈ mapSet m k v, 0 ≤ kv.2 := by
  induction m with
  | nil =>
    intro kv hkv
    rw [List.mem_singleton.mp hkv]
    exact hv
  | cons kv0 rest ih =>
    obtain ⟨k0, w0⟩ := kv0
    intro kv hkv
    unfold mapSet at hkv
    by_cases hk : k0 = k
    · rw [if_pos hk] at hkv
      rcases List.mem_cons.mp hkv with h | h
      · rw [h]
        exact hv
      · exact hm _ (List.mem_cons_of_mem _ h)
    · rw [if_neg hk] at hkv
      rcases List.mem_cons.mp hkv with h | h
      · rw [h]
        exact hm _ (List.mem_cons_self _ _)
      · exact ih (fun kv hx => hm kv (List.mem_cons_of_mem _ hx)) kv h

theorem mapAdd_values_nonneg (m : List (String × ℚ)) (k : String) (v : ℚ)
    (hm : ∀ kv ∈ m, 0 ≤ kv.2) (hv : 0 ≤ v) : ∀ kv ∈ mapAdd m k v, 0 ≤ kv.2 :=
  mapSet_values_nonneg m k _ hm (add_nonneg (mapGetD_nonneg m hm k) hv)

theorem storyEntryWeight_nonneg (minRating : ℚ) (h : 0 ≤ minRating)
    (e : LibraryEntry) : 0 ≤ storyEntryWeight minRating e := by
  unfold storyEntryWeight clamp
  have h1 : minRating ≤ max minRating (min 10 (e.rating.getD minRating)) :=
    le_max_left _ _
  positivity

theorem storyTermWeights_nonneg (entries : List LibraryEntry) (minRating : ℚ)
    (h : 0 ≤ minRating) : ∀ kv ∈ storyTermWeights entries minRating, 0 ≤ kv.2 := by
  unfold storyTermWeights
  refine foldl_preserve_mem (fun m : List (String × ℚ) => ∀ kv ∈ m, 0 ≤ kv.2) _ _ [] ?_ ?_
  · intro m e _ hm
    unfold storyTermAddEntry
    refine foldl_preserve_mem (fun m : List (String × ℚ) => ∀ kv ∈ m, 0 ≤ kv.2) _ _ m ?_ hm
    intro m' t _ hm'
    exact mapAdd_values_nonneg m' t _ hm' (storyEntryWeight_nonneg minRating h e)
  · intro kv hkv
    exact absurd hkv (List.not_mem_nil _)

theorem storyMotifWeights_nonneg (entries : List LibraryEntry) (minRating : ℚ)
    (h : 0 ≤ minRating) : ∀ kv ∈ storyMotifWeights entries minRating, 0 ≤ kv.2 := by
  unfold storyMotifWeights
  refine foldl_preserve_mem (fun m : List (String × ℚ) => ∀ kv ∈ m, 0 ≤ kv.2) _ _ [] ?_ ?_
  · intro m e _ hm
    unfold storyMotifAddEntry
    refine foldl_preserve_mem (fun m : List (String × ℚ) => ∀ kv ∈ m, 0 ≤ kv.2) _ _ m ?_ hm
    intro m' t _ hm'
    exact mapAdd_values_nonneg m' t _ hm' (storyEntryWeight_nonneg minRating h e)
  · intro kv hkv
    exact absurd hkv (List.not_mem_nil _)

theorem mem_insertDescBy {w : α → ℚ} {x y : α} {l : List α}
    (h : y ∈ insertDescBy w x l) : y = x ∨ y ∈ l := by
  induction l with
  | nil =>
    unfold insertDescBy at h
    exact Or.inl (List.mem_singleton.mp h)
  | cons z rest ih =>
    unfold insertDescBy at h
    by_cases hc : w x ≤ w z
    · rw [if_pos hc] at h
      rcases List.mem_cons.mp h with h2 | h2
      · exact Or.inr (h2 ▸ List.mem_cons_self _ _)
      · rcases ih h2 with h3 | h3
        · exact Or.inl h3
        · exact Or.inr (List.mem_cons_of_mem _ h3)
    · rw [if_neg hc] at h
      rcases List.mem_cons.mp h with h2 | h2
      · exact Or.inl h2
      · exact Or.inr h2

theorem mem_sortDescBy {w : α → ℚ} {y : α} {l : List α}
    (h : y ∈ sortDescBy w l) : y ∈ l := by
  induction l with
  | nil => simp [sortDescBy] at h
  | cons x rest ih =>
    unfold sortDescBy at h
    rcases mem_insertDescBy h with h2 | h2
    · exact h2 ▸ List.mem_cons_self _ _
    · exact List.mem_cons_of_mem _ (ih h2)

theorem buildStoryProfile_weights (entries : List LibraryEntry) (minRating : ℚ) :
    (buildStoryProfile entries minRating).weights = storyTermWeights entries minRating :=
  rfl

theorem buildStoryProfile_motifWeights (entries : List LibraryEntry) (minRating : ℚ) :
    (buildStoryProfile entries minRating).motifWeights =
      storyMotifWeights entries minRating :=
  rfl

theorem denom_pos_of_nonneg {s : ℚ} (hs : 0 ≤ s) : 0 < if s = 0 then 1 else s := by
  by_cases h : s = 0
  · rw [if_pos h]
    norm_num
  · rw [if_neg h]
    exact lt_of_le_of_ne hs (Ne.symm h)

theorem buildStoryProfile_denominator_pos (entries : List LibraryEntry)
    (minRating : ℚ) (h : 0 ≤ minRating) :
    0 < (buildStoryProfile entries minRating).normDenominator := by
  have hw := storyTermWeights_nonneg entries minRating h
  have hmw := storyMotifWeights_nonneg entries minRating h
  have hsum1 : 0 ≤ (((sortDescBy (fun x : TermWeight => x.weight)
      ((storyTermWeights entries minRating).map (fun kv => ⟨kv.1, kv.2⟩))).take 20).take
        10).foldl (fun acc x => acc + x.weight) 0 := by
    refine foldl_preserve_mem _ _ _ 0 ?_ le_rfl
    intro b x hx hb
    refine add_nonneg hb ?_
    have hx2 := mem_sortDescBy (List.take_subset _ _ (List.take_subset _ _ hx))
    obtain ⟨kv, hkv, hkv2⟩ := List.mem_map.mp hx2
    rw [← hkv2]
    exact hw kv hkv
  have hsum2 : 0 ≤ (((sortDescBy (fun x : MotifWeight => x.weight)
      ((storyMotifWeights entries minRating).map (fun kv => ⟨kv.1, kv.2⟩))).take 8).take
        4).foldl (fun acc x => acc + x.weight * 1.5) 0 := by
    refine foldl_preserve_mem _ _ _ 0 ?_ le_rfl
    intro b x hx hb
    refine add_nonneg hb ?_
    have hx2 := mem_sortDescBy (List.take_subset _ _ (List.take_subset _ _ hx))
    obtain ⟨kv, hkv, hkv2⟩ := List.mem_map.mp hx2
    have : (0 : ℚ) ≤ x.weight := by
      rw [← hkv2]
      exact hmw kv hkv
    nlinarith
  exact denom_pos_of_nonneg (add_nonneg hsum1 hsum2)

theorem scoreStory1_nonneg (doc : OpenLibraryDoc) (sp : StoryProfile)
    (hw : ∀ kv ∈ sp.weights, 0 ≤ kv.2) : 0 ≤ (scoreStory1 doc sp).1 := by
  unfold scoreStory1
  refine foldl_preserve_mem (fun acc : ℚ × List TermWeight => 0 ≤ acc.1) _ _ _ ?_ le_rfl
  intro acc t _ hacc
  cases hg : mapGet sp.weights t with
  | none => simpa [hg] using hacc
  | some w =>
    have hwn : 0 ≤ w := mapGet_nonneg sp.weights hw t w hg
    by_cases hw0 : w = 0
    · simpa [hg, hw0] using hacc
    · simp only [hg, if_neg hw0]
      exact add_nonneg hacc hwn

theorem scoreStory2_nonneg (doc : OpenLibraryDoc) (sp : StoryProfile)
    (hw : ∀ kv ∈ sp.weights, 0 ≤ kv.2) (hmw : ∀ kv ∈ sp.motifWeights, 0 ≤ kv.2) :
    0 ≤ (scoreStory2 doc sp).1 := by
  unfold scoreStory2
  refine foldl_preserve_mem (fun acc : ℚ × List MotifWeight => 0 ≤ acc.1) _ _ _ ?_
    (scoreStory1_nonneg doc sp hw)
  intro acc t _ hacc
  cases hg : mapGet sp.motifWeights t with
  | none => simpa [hg] using hacc
  | some w =>
    have hwn : 0 ≤ w := mapGet_nonneg sp.motifWeights hmw t w hg
    by_cases hw0 : w = 0
    · simpa [hg, hw0] using hacc
    · simp only [hg, if_neg hw0]
      nlinarith

theorem scoreTopicHits_nonneg (doc : OpenLibraryDoc) (profile : Profile) :
    0 ≤ (scoreTopicHits doc profile).2 := by
  unfold scoreTopicHits
  refine foldl_preserve_mem (fun acc : List String × ℚ => 0 ≤ acc.2) _ _ _ ?_ le_rfl
  intro acc s _ hacc
  dsimp only
  split
  · dsimp only
    refine add_nonneg hacc ?_
    split <;> norm_num
  · exact hacc

theorem scoreStoryNorm_le_one (doc : OpenLibraryDoc) (sp : StoryProfile) :
    scoreStoryNorm doc sp ≤ 1 := by
  unfold scoreStoryNorm
  exact min_le_left _ _

theorem scoreStoryNorm_nonneg (doc : OpenLibraryDoc) (sp : StoryProfile)
    (h1 : 0 ≤ (scoreStory2 doc sp).1) (hd : 0 ≤ sp.normDenominator) :
    0 ≤ scoreStoryNorm doc sp := by
  unfold scoreStoryNorm
  exact le_min (by norm_num) (div_nonneg h1 hd)

theorem scoreTopicNorm_le_one (doc : OpenLibraryDoc) (profile : Profile) :
    scoreTopicNorm doc profile ≤ 1 := by
  unfold scoreTopicNorm
  split
  · norm_num
  · exact min_le_left _ _

theorem scoreTopicNorm_nonneg (doc : OpenLibraryDoc) (profile : Profile) :
    0 ≤ scoreTopicNorm doc profile := by
  unfold scoreTopicNorm
  split
  · exact le_rfl
  · refine le_min (by norm_num) (div_nonneg (scoreTopicHits_nonneg doc profile) ?_)
    exact le_min (by norm_num) (by positivity)

theorem scoreCandidate_score (doc : OpenLibraryDoc) (profile : Profile)
    (sp : StoryProfile) :
    (scoreCandidate doc profile sp).score =
      STORY_WEIGHT * scoreStoryNorm doc sp + TOPIC_WEIGHT * scoreTopicNorm doc profile +
        AUTHOR_WEIGHT * (if (scoreAuthHit doc profile).isSome then (1 : ℚ) else 0) :=
  rfl

/-- C10: for any candidate document and profile, with the story profile built
by `buildStoryProfile` at a nonnegative `minRating` (the handler clamps
`minRating` into `[0, 10]`), `scoreCandidate`'s base score — story, topic and
author components, each a `[0,1]`-clamped normalised value times its weight
constant 60 / 28 / 12, before the German bonus and preference boost — lies in
`[0, 100]`. -/
theorem C10_score_in_range (doc : OpenLibraryDoc) (profile : Profile)
    (entries : List LibraryEntry) (minRating : ℚ) (hmr : 0 ≤ minRating) :
    0 ≤ (scoreCandidate doc profile (buildStoryProfile entries minRating)).score ∧
      (scoreCandidate doc profile (buildStoryProfile entries minRating)).score ≤ 100 := by
  have hw : ∀ kv ∈ (buildStoryProfile entries minRating).weights, 0 ≤ kv.2 := by
    rw [buildStoryProfile_weights]
    exact storyTermWeights_nonneg entries minRating hmr
  have hmw : ∀ kv ∈ (buildStoryProfile entries minRating).motifWeights, 0 ≤ kv.2 := by
    rw [buildStoryProfile_motifWeights]
    exact storyMotifWeights_nonneg entries minRating hmr
  have hd := buildStoryProfile_denominator_pos entries minRating hmr
  have hs0 := scoreStoryNorm_nonneg doc _ (scoreStory2_nonneg doc _ hw hmw) (le_of_lt hd)
  have hs1 := scoreStoryNorm_le_one doc (buildStoryProfile entries minRating)
  have ht0 := scoreTopicNorm_nonneg doc profile
  have ht1 := scoreTopicNorm_le_one doc profile
  have ha0 : (0 : ℚ) ≤ (if (scoreAuthHit doc profile).isSome then (1 : ℚ) else 0) := by
    split <;> norm_num
  have ha1 : (if (scoreAuthHit doc profile).isSome then (1 : ℚ) else 0) ≤ 1 := by
    split <;> norm_num
  rw [scoreCandidate_score]
  unfold STORY_WEIGHT TOPIC_WEIGHT AUTHOR_WEIGHT
  constructor <;> nlinarith

theorem C10_witness :
    (0 : ℚ) ≤ 4 ∧
      (0 ≤ (scoreCandidate {} { likedCount := 0, topSubjects := [], topAuthors := [] }
            (buildStoryProfile [] 4)).score ∧
        (scoreCandidate {} { likedCount := 0, topSubjects := [], topAuthors := [] }
            (buildStoryProfile [] 4)).score ≤ 100) :=
  ⟨by norm_num,
    C10_score_in_range {} { likedCount := 0, topSubjects := [], topAuthors := [] }
      [] 4 (by norm_num)⟩

/-- C4: refuted against the code.  The handler parses `seedMode` (storing it
only into its debug object) and calls `computeProfile(seedEntries, minRating)`
without it, so the profile's seed set is always the `liked` one.  On the
failing input the spec's `allRead` seed set has one entry while the code's
profile counts zero seeds. -/
theorem C4_seedMode_ignored :
    (ceC4Entries.filter (seedFilterSpec "allRead" 4)).length = 1 ∧
      (computeProfile ceC4Entries 4).likedCount = 0 := by
  constructor
  · rfl
  · rfl

theorem subjFold_getD (w : ℚ) (l : List String) (m : List (String × ℚ)) (k : String) :
    mapGetD (l.foldl (fun m s =>
        let k' := jsTrim s
        if k' = "" then m
        else mapAdd m k' (w * (if isGenericSubject k' then 0.15 else 1))) m) k 0 =
      mapGetD m k 0 +
        w * (((l.filter (fun s => decide (jsTrim s = k))).length : ℚ) *
          (if k = "" then 0 else if isGenericSubject k then 0.15 else 1)) := by
  induction l generalizing m with
  | nil => simp
  | cons s rest ih =>
    rw [List.foldl_cons, List.filter_cons]
    dsimp only
    by_cases hk : jsTrim s = k
    · rw [if_pos (by simp [hk] : decide (jsTrim s = k) = true)]
      by_cases hs : jsTrim s = ""
      · have hk0 : k = "" := hk ▸ hs
        rw [if_pos hs, ih, if_pos hk0]
        ring
      · have hk0 : ¬ k = "" := by
          rw [← hk]
          exact hs
        rw [if_neg hs, ih, mapGetD_mapAdd, if_pos hk, if_neg hk0, hk]
        simp only [List.length_cons]
        push_cast
        ring
    · rw [if_neg (by simp [hk] : ¬ decide (jsTrim s = k) = true)]
      by_cases hs : jsTrim s = ""
      · rw [if_pos hs, ih]
      · rw [if_neg hs, ih, mapGetD_mapAdd, if_neg hk]
        ring

theorem addFold_getD (w : ℚ) (l : List String) (m : List (String × ℚ)) (k : String) :
    mapGetD (l.foldl (fun m a => mapAdd m a w) m) k 0 =
      mapGetD m k 0 + ((l.filter (fun a => decide (a = k))).length : ℚ) * w := by
  induction l generalizing m with
  | nil => simp
  | cons a rest ih =>
    rw [List.foldl_cons, List.filter_cons]
    by_cases ha : a = k
    · rw [if_pos (by simp [ha] : decide (a = k) = true), ih, mapGetD_mapAdd, if_pos ha]
      simp only [List.length_cons]
      push_cast
      ring
    · rw [if_neg (by simp [ha] : ¬ decide (a = k) = true), ih, mapGetD_mapAdd, if_neg ha]
      ring

theorem profileSubjAddEntry_getD (minRating : ℚ) (e : LibraryEntry)
    (m : List (String × ℚ)) (k : String) :
    mapGetD (profileSubjAddEntry minRating m e) k 0 =
      mapGetD m k 0 + profileEntryWeight minRating e *
        (((e.subjects.filter (fun s => decide (jsTrim s = k))).length : ℚ) *
          (if k = "" then 0 else if isGenericSubject k then 0.15 else 1)) :=
  subjFold_getD _ _ _ _

theorem profileAuthAddEntry_getD (minRating : ℚ) (e : LibraryEntry)
    (m : List (String × ℚ)) (k : String) :
    mapGetD (profileAuthAddEntry minRating m e) k 0 =
      mapGetD m k 0 +
        (((((splitListOn (fun c => c = ',') e.authors.data).map (fun x => jsTrim x)).filter
              (fun a => a ≠ "")).filter (fun a => decide (a = k))).length : ℚ) *
          profileEntryWeight minRating e :=
  addFold_getD _ _ _ _

theorem storyTermAddEntry_getD (minRating : ℚ) (e : LibraryEntry)
    (m : List (String × ℚ)) (k : String) :
    mapGetD (storyTermAddEntry minRating m e) k 0 =
      mapGetD m k 0 +
        (((dedupKeepFirst (extractStoryTerms (storyEntryText e))).filter
            (fun t => decide (t = k))).length : ℚ) * storyEntryWeight minRating e :=
  addFold_getD _ _ _ _

theorem storyMotifAddEntry_getD (minRating : ℚ) (e : LibraryEntry)
    (m : List (String × ℚ)) (k : String) :
    mapGetD (storyMotifAddEntry minRating m e) k 0 =
      mapGetD m k 0 +
        (((extractMotifsFromText (storyEntryText e)).filter
            (fun t => decide (t = k))).length : ℚ) * storyEntryWeight minRating e :=
  addFold_getD _ _ _ _

/-- C9: raising a seed entry's rating within `[minRating, 10]` never decreases
the weight the entry adds for any of its subjects, its authors, its story
terms or its motifs during profile construction (`computeProfile`'s and
`buildStoryProfile`'s accumulation steps, for every accumulator state `m` and
every key `k`). -/
theorem C9_rating_weight_monotone (minRating r r2 : ℚ) (e : LibraryEntry)
    (_h1 : minRating ≤ r) (h2 : r ≤ r2) (_h3 : r2 ≤ 10) (he : e.rating = some r)
    (m : List (String × ℚ)) (k : String) :
    mapGetD (profileSubjAddEntry minRating m e) k 0 ≤
        mapGetD (profileSubjAddEntry minRating m { e with rating := some r2 }) k 0 ∧
      mapGetD (profileAuthAddEntry minRating m e) k 0 ≤
        mapGetD (profileAuthAddEntry minRating m { e with rating := some r2 }) k 0 ∧
      mapGetD (storyTermAddEntry minRating m e) k 0 ≤
        mapGetD (storyTermAddEntry minRating m { e with rating := some r2 }) k 0 ∧
      mapGetD (storyMotifAddEntry minRating m e) k 0 ≤
        mapGetD (storyMotifAddEntry minRating m { e with rating := some r2 }) k 0 := by
  have hclamp : clamp r minRating 10 ≤ clamp r2 minRating 10 := by
    unfold clamp
    exact max_le_max le_rfl (min_le_min le_rfl h2)
  have hww : profileEntryWeight minRating e ≤
      profileEntryWeight minRating { e with rating := some r2 } := by
    show clamp (e.rating.getD minRating) minRating 10 ≤ clamp r2 minRating 10
    rw [he]
    exact hclamp
  have hsw : storyEntryWeight minRating e ≤
      storyEntryWeight minRating { e with rating := some r2 } := by
    show clamp (e.rating.getD minRating) minRating 10 / 10 ≤ clamp r2 minRating 10 / 10
    rw [he]
    exact (div_le_div_iff_of_pos_right (by norm_num)).mpr hclamp
  refine ⟨?_, ?_, ?_, ?_⟩
  · have hsubj : ({ e with rating := some r2 } : LibraryEntry).subjects = e.subjects := rfl
    rw [profileSubjAddEntry_getD, profileSubjAddEntry_getD, hsubj]
    have hc : (0 : ℚ) ≤
        ((e.subjects.filter (fun s => decide (jsTrim s = k))).length : ℚ) := by
      positivity
    have hF : (0 : ℚ) ≤ (if k = "" then (0 : ℚ) else
        if isGenericSubject k then 0.15 else 1) := by
      split
      · norm_num
      · split <;> norm_num
    exact add_le_add_left (mul_le_mul_of_nonneg_right hww (mul_nonneg hc hF)) _
  · have hauth : ({ e with rating := some r2 } : LibraryEntry).authors = e.authors := rfl
    rw [profileAuthAddEntry_getD, profileAuthAddEntry_getD, hauth]
    have hc : (0 : ℚ) ≤
        (((((splitListOn (fun c => c = ',') e.authors.data).map (fun x => jsTrim x)).filter
              (fun a => a ≠ "")).filter (fun a => decide (a = k))).length : ℚ) := by
      positivity
    exact add_le_add_left (mul_le_mul_of_nonneg_left hww hc) _
  · have htext : storyEntryText { e with rating := some r2 } = storyEntryText e := rfl
    rw [storyTermAddEntry_getD, storyTermAddEntry_getD, htext]
    have hc : (0 : ℚ) ≤
        (((dedupKeepFirst (extractStoryTerms (storyEntryText e))).filter
            (fun t => decide (t = k))).length : ℚ) := by
      positivity
    exact add_le_add_left (mul_le_mul_of_nonneg_left hsw hc) _
  · have htext : storyEntryText { e with rating := some r2 } = storyEntryText e := rfl
    rw [storyMotifAddEntry_getD, storyMotifAddEntry_getD, htext]
    have hc : (0 : ℚ) ≤
        (((extractMotifsFromText (storyEntryText e)).filter
            (fun t => decide (t = k))).length : ℚ) := by
      positivity
    exact add_le_add_left (mul_le_mul_of_nonneg_left hsw hc) _

theorem C9_witness :
    ((4 : ℚ) ≤ 5 ∧ (5 : ℚ) ≤ 7 ∧ (7 : ℚ) ≤ 10 ∧ ceC9Entry.rating = some 5) ∧
      (mapGetD (profileSubjAddEntry 4 [] ceC9Entry) "grief" 0 ≤
          mapGetD (profileSubjAddEntry 4 [] { ceC9Entry with rating := some 7 })
            "grief" 0 ∧
        mapGetD (profileAuthAddEntry 4 [] ceC9Entry) "grief" 0 ≤
          mapGetD (profileAuthAddEntry 4 [] { ceC9Entry with rating := some 7 })
            "grief" 0 ∧
        mapGetD (storyTermAddEntry 4 [] ceC9Entry) "grief" 0 ≤
          mapGetD (storyTermAddEntry 4 [] { ceC9Entry with rating := some 7 })
            "grief" 0 ∧
        mapGetD (storyMotifAddEntry 4 [] ceC9Entry) "grief" 0 ≤
          mapGetD (storyMotifAddEntry 4 [] { ceC9Entry with rating := some 7 })
            "grief" 0) :=
  ⟨⟨by norm_num, by norm_num, by norm_num, rfl⟩,
    C9_rating_weight_monotone 4 5 7 ceC9Entry (by norm_num) (by norm_num)
      (by norm_num) rfl [] "grief"⟩

theorem pInit_inv (items : List α) (mapper : α → β) (K : Nat) :
    PInv items mapper (max 1 (min K items.length)) (pInit items K (β := β)) := by
  refine ⟨List.length_replicate _ _, List.length_replicate _ _, ?_, ?_, ?_, ?_⟩
  · intro i a ha
    have hi : i < items.length := by
      by_contra hcon
      rw [List.getElem?_eq_none (Nat.le_of_not_lt hcon)] at ha
      cases ha
    left
    show (List.replicate items.length (none : Option β))[i]? = some none
    rw [List.getElem?_replicate]
    rw [if_pos hi]
  · intro w i hw
    have : (List.replicate (max 1 (min K items.length)) WStatus.atLoop)[w]? =
        some (WStatus.running i) := hw
    rw [List.getElem?_replicate] at this
    split at this
    · cases this
    · cases this
  · intro i hi _
    exact absurd hi (Nat.not_lt_zero i)
  · rintro ⟨w, hw⟩
    have : (List.replicate (max 1 (min K items.length)) WStatus.atLoop)[w]? =
        some WStatus.done := hw
    rw [List.getElem?_replicate] at this
    split at this
    · cases this
    · cases this

theorem pStep_inv (items : List α) (mapper : α → β) (W : Nat) (s : PMapState β)
    (w : Nat) (h : PInv items mapper W s) :
    PInv items mapper W (pStep items mapper s w) := by
  obtain ⟨h1, h2, h3, h4, h5, h6⟩ := h
  rcases hlook : s.workers[w]? with _ | st
  · have hstep : pStep items mapper s w = s := by
      unfold pStep
      rw [hlook]
    rw [hstep]
    exact ⟨h1, h2, h3, h4, h5, h6⟩
  · have hstep : pStep items mapper s w = pStepAt items mapper s w st := by
      unfold pStep
      rw [hlook]
    rw [hstep]
    have hwlt : w < s.workers.length := by
      by_contra hcon
      rw [List.getElem?_eq_none (Nat.le_of_not_lt hcon)] at hlook
      cases hlook
    cases st with
    | atLoop =>
      by_cases hi : s.nextIndex < items.length
      · have hat : pStepAt items mapper s w WStatus.atLoop =
            { s with nextIndex := s.nextIndex + 1
                   , workers := listSet s.workers w (WStatus.running s.nextIndex) } := by
          unfold pStepAt
          rw [if_pos hi]
        rw [hat]
        refine ⟨h1, ?_, h3, ?_, ?_, ?_⟩
        · rw [length_listSet]
          exact h2
        · intro w' i' hw'
          by_cases hww : w' = w
          · subst hww
            rw [getElem?_listSet_self _ _ _ hwlt] at hw'
            injection hw' with hw2
            cases hw2
            exact ⟨hi, Nat.lt_succ_self _⟩
          · rw [getElem?_listSet_ne _ _ _ _ hww] at hw'
            obtain ⟨ha, hb⟩ := h4 w' i' hw'
            exact ⟨ha, Nat.lt_succ_of_lt hb⟩
        · intro i' hi' hin'
          by_cases hieq : i' = s.nextIndex
          · subst hieq
            exact Or.inl ⟨w, by rw [getElem?_listSet_self _ _ _ hwlt]⟩
          · have hi2 : i' < s.nextIndex := Nat.lt_of_le_of_ne (Nat.le_of_lt_succ hi') hieq
            rcases h5 i' hi2 hin' with ⟨w', hw'⟩ | hout
            · have hww : w' ≠ w := by
                intro hcon
                subst hcon
                rw [hlook] at hw'
                cases hw'
              exact Or.inl ⟨w', by rw [getElem?_listSet_ne _ _ _ _ hww]; exact hw'⟩
            · exact Or.inr hout
        · rintro ⟨w', hw'⟩
          by_cases hww : w' = w
          · subst hww
            rw [getElem?_listSet_self _ _ _ hwlt] at hw'
            cases hw'
          · rw [getElem?_listSet_ne _ _ _ _ hww] at hw'
            exact Nat.le_succ_of_le (h6 ⟨w', hw'⟩)
      · have hat : pStepAt items mapper s w WStatus.atLoop =
            { s with nextIndex := s.nextIndex + 1
                   , workers := listSet s.workers w WStatus.done } := by
          unfold pStepAt
          rw [if_neg hi]
        rw [hat]
        refine ⟨h1, ?_, h3, ?_, ?_, ?_⟩
        · rw [length_listSet]
          exact h2
        · intro w' i' hw'
          by_cases hww : w' = w
          · subst hww
            rw [getElem?_listSet_self _ _ _ hwlt] at hw'
            cases hw'
          · rw [getElem?_listSet_ne _ _ _ _ hww] at hw'
            obtain ⟨ha, hb⟩ := h4 w' i' hw'
            exact ⟨ha, Nat.lt_succ_of_lt hb⟩
        · intro i' hi' hin'
          have hi2 : i' < s.nextIndex := lt_of_lt_of_le hin' (Nat.le_of_not_lt hi)
          rcases h5 i' hi2 hin' with ⟨w', hw'⟩ | hout
          · have hww : w' ≠ w := by
              intro hcon
              subst hcon
              rw [hlook] at hw'
              cases hw'
            exact Or.inl ⟨w', by rw [getElem?_listSet_ne _ _ _ _ hww]; exact hw'⟩
          · exact Or.inr hout
        · intro _
          exact Nat.le_succ_of_le (Nat.le_of_not_lt hi)
    | running i =>
      obtain ⟨hin, hini⟩ := h4 w i hlook
      have hat : pStepAt items mapper s w (WStatus.running i) =
          { s with out := listSet s.out i (some (mapper items[i]))
                 , workers := listSet s.workers w WStatus.atLoop } := by
        unfold pStepAt
        exact dif_pos hin
      rw [hat]
      have hilt : i < s.out.length := by
        rw [h1]
        exact hin
      refine ⟨?_, ?_, ?_, ?_, ?_, ?_⟩
      · rw [length_listSet]
        exact h1
      · rw [length_listSet]
        exact h2
      · intro i' a' ha'
        by_cases hieq : i' = i
        · subst hieq
          right
          rw [getElem?_listSet_self _ _ _ hilt]
          rw [List.getElem?_eq_getElem hin] at ha'
          injection ha' with ha2
          rw [ha2]
        · rw [getElem?_listSet_ne _ _ _ _ hieq]
          exact h3 i' a' ha'
      · intro w' i' hw'
        by_cases hww : w' = w
        · subst hww
          rw [getElem?_listSet_self _ _ _ hwlt] at hw'
          cases hw'
        · rw [getElem?_listSet_ne _ _ _ _ hww] at hw'
          exact h4 w' i' hw'
      · intro i' hi' hin'
        by_cases hieq : i' = i
        · subst hieq
          right
          rw [getElem?_listSet_self _ _ _ hilt]
          intro hcon
          injection hcon with hc2
          cases hc2
        · rcases h5 i' hi' hin' with ⟨w', hw'⟩ | hout
          · have hww : w' ≠ w := by
              intro hcon
              subst hcon
              rw [hlook] at hw'
              injection hw' with hw2
              injection hw2 with hw3
              exact hieq hw3.symm
            exact Or.inl ⟨w', by rw [getElem?_listSet_ne _ _ _ _ hww]; exact hw'⟩
          · right
            rw [getElem?_listSet_ne _ _ _ _ hieq]
            exact hout
      · rintro ⟨w', hw'⟩
        by_cases hww : w' = w
        · subst hww
          rw [getElem?_listSet_self _ _ _ hwlt] at hw'
          cases hw'
        · rw [getElem?_listSet_ne _ _ _ _ hww] at hw'
          exact h6 ⟨w', hw'⟩
    | done =>
      have hat : pStepAt items mapper s w WStatus.done = s := rfl
      rw [hat]
      exact ⟨h1, h2, h3, h4, h5, h6⟩

theorem pRun_inv (items : List α) (mapper : α → β) (K : Nat) (sched : List Nat) :
    PInv items mapper (max 1 (min K items.length)) (pRun items K mapper sched) := by
  unfold pRun
  refine foldl_preserve_mem (PInv items mapper (max 1 (min K items.length))) _ _ _ ?_
    (pInit_inv items mapper K)
  intro s w _ hs
  exact pStep_inv items mapper _ s w hs

theorem pRun_all_done_out (items : List α) (mapper : α → β) (K : Nat)
    (sched : List Nat)
    (hdone : ∀ st ∈ (pRun items K mapper sched).workers, st = WStatus.done) :
    (pRun items K mapper sched).out = items.map (fun a => some (mapper a)) := by
  obtain ⟨h1, h2, h3, h4, h5, h6⟩ := pRun_inv items mapper K sched
  have hW1 : 0 < (pRun items K mapper sched).workers.length := by
    rw [h2]
    exact lt_of_lt_of_le Nat.one_pos (Nat.le_max_left _ _)
  have hd0 : (pRun items K mapper sched).workers[0]? = some WStatus.done := by
    rcases hx : (pRun items K mapper sched).workers[0]? with _ | st
    · rw [List.getElem?_eq_none_iff] at hx
      exact absurd hW1 (Nat.not_lt_of_le hx)
    · rw [hdone st (List.getElem?_mem hx)]
  have hni : items.length ≤ (pRun items K mapper sched).nextIndex := h6 ⟨0, hd0⟩
  apply List.ext_getElem?
  intro i
  rw [List.getElem?_map]
  by_cases hi : i < items.length
  · obtain ⟨a, ha⟩ : ∃ a, items[i]? = some a := by
      rcases hx : items[i]? with _ | a
      · rw [List.getElem?_eq_none_iff] at hx
        exact absurd hi (Nat.not_lt_of_le hx)
      · exact ⟨a, rfl⟩
    rcases h5 i (lt_of_lt_of_le hi hni) hi with ⟨w', hw'⟩ | hout
    · have := hdone _ (List.getElem?_mem hw')
      cases this
    · rcases h3 i a ha with hcell | hcell
      · exact absurd hcell hout
      · rw [hcell, ha]
        rfl
  · rw [List.getElem?_eq_none (by rw [h1]; exact Nat.le_of_not_lt hi)]
    rw [List.getElem?_eq_none (Nat.le_of_not_lt hi)]
    rfl

/-- C7: for every worker interleaving of the `pMapLimit` pool with `K ≥ 1`,
the pool holds at most `K` workers (so at most `K` mapper calls are in flight
at any time — every reachable state is a run of some schedule prefix), and
when every worker has finished, the output array equals the sequential map of
the mapper over the input list, in input order.  (The empty-input early
return yields `[]` likewise.) -/
theorem C7_pMapLimit_bounded_ordered_map (items : List α) (K : Nat)
    (mapper : α → β) (sched : List Nat) (hK : 1 ≤ K) :
    (pMapLimit items K mapper sched).workers.length ≤ K ∧
      (pMapLimit items K mapper sched).workers.countP wIsRunning ≤ K ∧
      ((∀ st ∈ (pMapLimit items K mapper sched).workers, st = WStatus.done) →
        (pMapLimit items K mapper sched).out =
          items.map (fun a => some (mapper a))) := by
  unfold pMapLimit
  by_cases h0 : items.length = 0
  · rw [if_pos h0]
    have hnil : items = [] := List.eq_nil_of_length_eq_zero h0
    subst hnil
    exact ⟨Nat.zero_le K, Nat.zero_le K, fun _ => rfl⟩
  · rw [if_neg h0]
    have h2 := (pRun_inv items mapper K sched).2.1
    have hWK : max 1 (min K items.length) ≤ K := by
      have ha : min K items.length ≤ K := Nat.min_le_left _ _
      omega
    refine ⟨by rw [h2]; exact hWK, ?_, pRun_all_done_out items mapper K sched⟩
    calc (pRun items K mapper sched).workers.countP wIsRunning
        ≤ (pRun items K mapper sched).workers.length := List.countP_le_length _
      _ ≤ K := by rw [h2]; exact hWK

theorem C7_witness :
    1 ≤ 2 ∧
      ((pMapLimit [10, 20, 30] 2 (fun n => n + 1) [0, 1, 0, 1, 0, 1, 0,
          1]).workers.length ≤ 2 ∧
        (pMapLimit [10, 20, 30] 2 (fun n => n + 1) [0, 1, 0, 1, 0, 1, 0,
            1]).workers.countP wIsRunning ≤ 2 ∧
        ((∀ st ∈ (pMapLimit [10, 20, 30] 2 (fun n => n + 1) [0, 1, 0, 1, 0, 1, 0,
              1]).workers, st = WStatus.done) →
          (pMapLimit [10, 20, 30] 2 (fun n => n + 1) [0, 1, 0, 1, 0, 1, 0,
              1]).out = [10, 20, 30].map (fun n => some (n + 1)))) :=
  ⟨by norm_num,
    C7_pMapLimit_bounded_ordered_map [10, 20, 30] 2 (fun n => n + 1)
      [0, 1, 0, 1, 0, 1, 0, 1] (by norm_num)⟩

/-- C8: each network-backed resolver call — ISBN→work-key lookup,
title+author→QID lookup, and search — degrades to `null` (`[]` for search)
whenever its fetch fails (transport error, timeout and non-success HTTP
status all surface as the fetch `Except.error`), provided the memo cache has
no hit for the request; the resolvers' return types carry no exception, so
nothing propagates to the caller. -/
theorem C8_resolvers_degrade_to_null (err : String)
    (fIsbn : String → Except String (List (Option String)))
    (fWd : String → String → Except String (List WdItem))
    (fSearch : String → ℚ → Except String (List OpenLibraryDoc))
    (isbn title authors query : String) (limit : ℚ)
    (cache1 cache2 : List (String × Option String))
    (cache3 : List ((String × ℚ) × SearchCacheEntry)) (now : Int)
    (h1 : ∀ s, fIsbn s = Except.error err)
    (h2 : ∀ lang t, fWd lang t = Except.error err)
    (h3 : ∀ q l, fSearch q l = Except.error err)
    (hc1 : mapHas cache1 (jsTrim isbn) = false)
    (hc2 : mapHas cache2 (primaryAuthorKey (jsTrim authors) ++ "|" ++
      (if titleTokenKey (jsTrim title) ≠ "" then titleTokenKey (jsTrim title)
       else norm (jsTrim title))) = false)
    (hc3 : pairGet cache3 (query, limit) = none) :
    (openLibraryIsbnToWorkKey fIsbn cache1 isbn).1 = none ∧
      (wikidataWorkQidByTitleAuthor fWd cache2 title authors).1 = none ∧
      (openLibrarySearch fSearch cache3 now query limit).1 = [] := by
  refine ⟨?_, ?_, ?_⟩
  · unfold openLibraryIsbnToWorkKey
    by_cases hk : jsTrim isbn = ""
    · rw [if_pos hk]
    · rw [if_neg hk, if_neg (by rw [hc1]; exact Bool.false_ne_true), h1]
  · unfold wikidataWorkQidByTitleAuthor
    by_cases ht : jsTrim title = ""
    · rw [if_pos ht]
    · rw [if_neg ht, if_neg (by rw [hc2]; exact Bool.false_ne_true)]
      dsimp only
      have hloop : wdLangLoop fWd (jsTrim title) (primaryAuthorKey (jsTrim authors))
          (norm (authorLastName (pickPrimaryAuthor (jsTrim authors)))) WIKIDATA_LANGS =
          Except.error err := by
        unfold WIKIDATA_LANGS wdLangLoop
        rw [h2]
      rw [hloop]
  · unfold openLibrarySearch
    rw [hc3, h3]

theorem C8_witness :
    ((∀ s : String, (fun _ : String =>
        (Except.error "timeout" : Except String (List (Option String)))) s =
          Except.error "timeout") ∧
      (∀ (lang t : String), (fun _ _ : String =>
        (Except.error "timeout" : Except String (List WdItem))) lang t =
          Except.error "timeout") ∧
      (∀ (q : String) (l : ℚ), (fun (_ : String) (_ : ℚ) =>
        (Except.error "timeout" : Except String (List OpenLibraryDoc))) q l =
          Except.error "timeout") ∧
      mapHas ([] : List (String × Option String)) (jsTrim "3866471173") = false ∧
      pairGet ([] : List ((String × ℚ) × SearchCacheEntry)) ("subject:\"grief\"", 20) = none) ∧
      ((openLibraryIsbnToWorkKey (fun _ => Except.error "timeout") [] "3866471173").1 =
          none ∧
        (wikidataWorkQidByTitleAuthor (fun _ _ => Except.error "timeout") []
            "Die Verwandlung" "Franz Kafka").1 = none ∧
        (openLibrarySearch (fun _ _ => Except.error "timeout") [] 0
            "subject:\"grief\"" 20).1 = []) :=
  ⟨⟨fun _ => rfl, fun _ _ => rfl, fun _ _ => rfl, rfl, rfl⟩,
    C8_resolvers_degrade_to_null "timeout" (fun _ => Except.error "timeout")
      (fun _ _ => Except.error "timeout") (fun _ _ => Except.error "timeout")
      "3866471173" "Die Verwandlung" "Franz Kafka" "subject:\"grief\"" 20 [] [] [] 0
      (fun _ => rfl) (fun _ _ => rfl) (fun _ _ => rfl) rfl rfl rfl⟩

/-- C3: when no library entry passes the seed filter (`status = read` with
`rating ≥ minRating` — the code is always in `liked` mode, cf. C4), the
handler answers 200/ok with an empty recommendation list and
`likedCount = 0`, and performs zero OpenLibrary/Wikidata calls, whatever the
network oracle would have answered. -/
theorem C3_empty_seed_short_circuit (net : Net) (prefs : PreferenceSignals)
    (params : HandlerParams) (entries : List LibraryEntry)
    (h : ∀ e ∈ entries,
      likedPred (clamp (((jsParsedOr params.minRatingRaw 4 : Int) : ℚ)) 0 10) e = false) :
    (handler net prefs params entries).1.ok = true ∧
      (handler net prefs params entries).1.httpStatus = 200 ∧
      (handler net prefs params entries).1.recommendations = [] ∧
      (handler net prefs params entries).1.likedCount = 0 ∧
      (handler net prefs params entries).2 = 0 := by
  have hseed : ∀ e ∈ (if params.selectedSeedIds ≠ [] then
      entries.filter (fun e => params.selectedSeedIds.contains e.id) else entries),
      likedPred (clamp (((jsParsedOr params.minRatingRaw 4 : Int) : ℚ)) 0 10) e = false := by
    intro e he
    split at he
    · exact h e (List.mem_of_mem_filter he)
    · exact h e he
  have hlc : (computeProfile
      (if params.selectedSeedIds ≠ [] then
        entries.filter (fun e => params.selectedSeedIds.contains e.id) else entries)
      (clamp (((jsParsedOr params.minRatingRaw 4 : Int) : ℚ)) 0 10)).likedCount = 0 := by
    show ((if params.selectedSeedIds ≠ [] then
        entries.filter (fun e => params.selectedSeedIds.contains e.id) else entries).filter
          (likedPred (clamp (((jsParsedOr params.minRatingRaw 4 : Int) : ℚ)) 0 10))).length = 0
    rw [List.length_eq_zero]
    rw [List.filter_eq_nil_iff]
    intro a ha
    rw [hseed a ha]
    exact Bool.false_ne_true
  have hh : handler net prefs params entries =
      ({ ok := true, httpStatus := 200
       , likedCount := (computeProfile
            (if params.selectedSeedIds ≠ [] then
              entries.filter (fun e => params.selectedSeedIds.contains e.id) else entries)
            (clamp (((jsParsedOr params.minRatingRaw 4 : Int) : ℚ)) 0 10)).likedCount
       , recommendations := [] }, 0) := by
    unfold handler
    dsimp only
    rw [if_pos hlc]
  rw [hh]
  exact ⟨rfl, rfl, rfl, hlc, rfl⟩

theorem C3_witness :
    (∀ e ∈ ceC4Entries,
      likedPred (clamp (((jsParsedOr (HandlerParams.mk none none "liked" []).minRatingRaw
        4 : Int) : ℚ)) 0 10) e = false) ∧
      ((handler nullNet {} (HandlerParams.mk none none "liked" []) ceC4Entries).1.ok =
          true ∧
        (handler nullNet {} (HandlerParams.mk none none "liked" [])
            ceC4Entries).1.httpStatus = 200 ∧
        (handler nullNet {} (HandlerParams.mk none none "liked" [])
            ceC4Entries).1.recommendations = [] ∧
        (handler nullNet {} (HandlerParams.mk none none "liked" [])
            ceC4Entries).1.likedCount = 0 ∧
        (handler nullNet {} (HandlerParams.mk none none "liked" []) ceC4Entries).2 = 0) :=
  ⟨by decide,
    C3_empty_seed_short_circuit nullNet {} (HandlerParams.mk none none "liked" [])
      ceC4Entries (by decide)⟩

end BV
